import Mathlib

/-!
Verification development for the turn-based card-combat core of the
STS-freedom repository: a shallow embedding in Lean 4 of the entity/component
store (`src/core/ecs/ECS.ts`), the seeded RNG (`src/core/rng/SeededRNG.ts`),
the card/enemy content tables, the card-effect resolver
(`src/combat/cards/CardTypes.ts`, resolver part) and the combat state machine
(`src/combat/state/CombatStateMachine.ts`), together with theorems settling
the specification claims about them.

Modelling conventions:
* JavaScript `Map` objects are modelled as insertion-ordered association
  lists (`List (κ × α)`) whose `set` replaces in place and whose `delete`
  removes the entry; a real `Map` never holds a duplicate key.
* JavaScript `Set` objects are insertion-ordered duplicate-free lists.
* JS numbers holding integral game quantities are modelled as `Int`.
  The two fractional multipliers in the damage math (`* 0.75`, `* 1.5`)
  are exact in binary floating point for integral inputs of game magnitude,
  so `Math.floor(d * 0.75) = ⌊3d/4⌋` and `Math.floor(d * 1.5) = ⌊3d/2⌋`,
  which we write with `Int.fdiv` (floor division).
* `Math.random()` is an ambient oracle, independent of the seeded RNG; it is
  modelled as an explicit stream of numerators `a : Nat` consumed one per
  call (`ambNext`), each denoting the double `a / 2^53` in `[0,1)`, so that
  `Math.floor(Math.random() * k)` is the exact integer `(a * k) / 2^53`.
  The seeded xorshift128+ stream is modelled exactly over `Nat` with
  arithmetic `% 2^32` (JS 32-bit coercions); `random()` returns `n / 2^32`
  exactly, and each of its uses is written as the equivalent exact integer
  computation (documented at the definition).
* The event bus is modelled as an event log; the one listener the combat
  state machine registers (`CARD_DRAWN` → `store.drawCards`) is applied
  synchronously when the event is emitted, as `EventBus.emit` does.
-/

namespace STS

/-! ## Association-list model of JS `Map` and `Set` -/

/-- Lookup in an insertion-ordered association list (JS `Map.get`). -/
def alGet {κ α : Type} [DecidableEq κ] : List (κ × α) → κ → Option α
  | [], _ => none
  | (k', v) :: rest, k => if k' = k then some v else alGet rest k

/-- JS `Map.set`: replace in place if the key is present, else append. -/
def alSet {κ α : Type} [DecidableEq κ] : List (κ × α) → κ → α → List (κ × α)
  | [], k, v => [(k, v)]
  | (k', v') :: rest, k, v =>
    if k' = k then (k, v) :: rest else (k', v') :: alSet rest k v

/-- JS `Map.delete`: remove the entry for the key (a `Map` holds at most one). -/
def alErase {κ α : Type} [DecidableEq κ] : List (κ × α) → κ → List (κ × α)
  | [], _ => []
  | (k', v') :: rest, k =>
    if k' = k then alErase rest k else (k', v') :: alErase rest k

/-- JS `Map.has`. -/
def alHas {κ α : Type} [DecidableEq κ] (l : List (κ × α)) (k : κ) : Bool :=
  (alGet l k).isSome

/-- JS `Set.add`: append if not already present. -/
def setAdd {κ : Type} [DecidableEq κ] (l : List κ) (k : κ) : List κ :=
  if k ∈ l then l else l ++ [k]

/-- JS `Set.delete`. -/
def setErase {κ : Type} [DecidableEq κ] (l : List κ) (k : κ) : List κ :=
  l.filter (fun x => x ≠ k)

@[simp] theorem alGet_nil {κ α : Type} [DecidableEq κ] (k : κ) :
    alGet ([] : List (κ × α)) k = none := rfl

@[simp] theorem alGet_cons {κ α : Type} [DecidableEq κ] (k' k : κ) (v : α)
    (rest : List (κ × α)) :
    alGet ((k', v) :: rest) k = if k' = k then some v else alGet rest k := rfl

theorem alGet_alSet_self {κ α : Type} [DecidableEq κ]
    (l : List (κ × α)) (k : κ) (v : α) : alGet (alSet l k v) k = some v := by
  induction l with
  | nil => simp [alSet]
  | cons p rest ih =>
    obtain ⟨pk, pv⟩ := p
    by_cases h : pk = k
    · simp [alSet, h]
    · simp [alSet, h, ih]

theorem alGet_alSet_ne {κ α : Type} [DecidableEq κ]
    (l : List (κ × α)) (k k' : κ) (v : α) (h : k ≠ k') :
    alGet (alSet l k v) k' = alGet l k' := by
  induction l with
  | nil => simp [alSet, h]
  | cons p rest ih =>
    obtain ⟨pk, pv⟩ := p
    by_cases hp : pk = k
    · subst hp
      simp [alSet, h]
    · simp [alSet, hp, ih]

theorem alGet_alErase_self {κ α : Type} [DecidableEq κ]
    (l : List (κ × α)) (k : κ) : alGet (alErase l k) k = none := by
  induction l with
  | nil => simp [alErase]
  | cons p rest ih =>
    obtain ⟨pk, pv⟩ := p
    by_cases hp : pk = k
    · simp [alErase, hp, ih]
    · simp [alErase, hp, ih]

theorem alGet_alErase_ne {κ α : Type} [DecidableEq κ]
    (l : List (κ × α)) (k k' : κ) (h : k ≠ k') :
    alGet (alErase l k) k' = alGet l k' := by
  induction l with
  | nil => simp [alErase]
  | cons p rest ih =>
    obtain ⟨pk, pv⟩ := p
    by_cases hp : pk = k
    · subst hp
      simp [alErase, h, ih]
    · simp [alErase, hp, ih]

/-! ## Status-effect stacks

`StatusEffectsComponent.effects : Map<string, number>` is a status-name to
stack-count map.  JS truthiness of `effects.get(k)` means: the entry is
present and its value is nonzero. -/

/-- The stack map of a `statusEffects` component. -/
abbrev StatusMap := List (String × Int)

/-- Value of `effects.get(k) || 0`. -/
def sGetD (m : StatusMap) (k : String) : Int := (alGet m k).getD 0

/-- JS truthiness of `effects.get(k)`: present with a nonzero value. -/
def sTruthy (m : StatusMap) (k : String) : Bool :=
  match alGet m k with
  | some v => v ≠ 0
  | none => false

/-! ## The entity/component store (`World`, src/core/ecs/ECS.ts) -/

/-- The component kinds of the ECS, as a closed sum.  Fields follow the
component interfaces of `ECS.ts` (display-only fields `title`/`tint` of
`name`/`render` components are not read anywhere and are omitted). -/
inductive Component where
  | health (current max : Int)
  | block (amount : Int)
  | energy (current max : Int)
  | intent (action : String) (value : Int) (multiHit : Option Int)
  | statusEffects (effects : StatusMap)
  | position (x y slot : Int)
  | render (sprite : String) (scale : Int)
  | enemyAI (pattern : List String) (patternIndex : Int) (aiType : String)
  | name (n : String)
  deriving DecidableEq

/-- The `type` discriminator string of a component record. -/
def Component.ctype : Component → String
  | .health .. => "health"
  | .block .. => "block"
  | .energy .. => "energy"
  | .intent .. => "intent"
  | .statusEffects .. => "statusEffects"
  | .position .. => "position"
  | .render .. => "render"
  | .enemyAI .. => "enemyAI"
  | .name .. => "name"

/-- The `World` class: entity set, per-kind component maps and the two tag
indexes, exactly as private fields of `World` in `ECS.ts`. -/
structure World where
  nextEntityId : Nat
  entities : List Nat
  components : List (String × List (Nat × Component))
  entityTags : List (Nat × List String)
  tagEntities : List (String × List Nat)
  deriving DecidableEq

namespace World

/-- `new World()` / the state after `clear()`. -/
def empty : World := ⟨0, [], [], [], []⟩

/-- `World.createEntity`. -/
def createEntity (w : World) : Nat × World :=
  let id := w.nextEntityId
  (id, { w with
           nextEntityId := id + 1
           entities := setAdd w.entities id
           entityTags := alSet w.entityTags id [] })

/-- `World.hasEntity`. -/
def hasEntity (w : World) (id : Nat) : Bool := id ∈ w.entities

/-- `World.getComponent` (by the component-kind string). -/
def getComponent (w : World) (id : Nat) (t : String) : Option Component :=
  (alGet w.components t).bind (fun m => alGet m id)

/-- `World.addComponent`.  The source throws `Entity does not exist` for an
unknown entity; we return `none` in that case. -/
def addComponent (w : World) (id : Nat) (c : Component) : Option World :=
  if id ∈ w.entities then
    some { w with
             components :=
               alSet w.components c.ctype
                 (alSet ((alGet w.components c.ctype).getD []) id c) }
  else none

/-- In-place mutation of a component record already held in the store
(e.g. `health.current = …`): replace the stored record. -/
def updateComponent (w : World) (id : Nat) (c : Component) : World :=
  { w with
      components :=
        alSet w.components c.ctype
          (alSet ((alGet w.components c.ctype).getD []) id c) }

/-- `World.destroyEntity`: removes all components and tag memberships;
a no-op when the entity is unknown. -/
def destroyEntity (w : World) (id : Nat) : World :=
  if id ∈ w.entities then
    let tags := (alGet w.entityTags id).getD []
    { w with
        components := w.components.map (fun p => (p.1, alErase p.2 id))
        entityTags := alErase w.entityTags id
        tagEntities :=
          w.tagEntities.map
            (fun p => (p.1, if p.1 ∈ tags then setErase p.2 id else p.2))
        entities := setErase w.entities id }
  else w

/-- `World.addTag`. -/
def addTag (w : World) (id : Nat) (tag : String) : World :=
  if id ∈ w.entities then
    { w with
        entityTags :=
          match alGet w.entityTags id with
          | some s => alSet w.entityTags id (setAdd s tag)
          | none => w.entityTags
        tagEntities :=
          alSet w.tagEntities tag (setAdd ((alGet w.tagEntities tag).getD []) id) }
  else w

/-- `World.hasTag`. -/
def hasTag (w : World) (id : Nat) (tag : String) : Bool :=
  match alGet w.entityTags id with
  | some s => tag ∈ s
  | none => false

/-- `World.getEntitiesByTag`. -/
def getEntitiesByTag (w : World) (tag : String) : List Nat :=
  (alGet w.tagEntities tag).getD []

end World

/-! Typed component accessors used by the resolver and the state machine
(the TS code reads `getComponent(id, 'health')` with a typed signature). -/

/-- Read the health component as a `(current, max)` pair. -/
def getHealth (w : World) (id : Nat) : Option (Int × Int) :=
  match w.getComponent id "health" with
  | some (.health c m) => some (c, m)
  | _ => none

/-- Read the block component's amount. -/
def getBlock (w : World) (id : Nat) : Option Int :=
  match w.getComponent id "block" with
  | some (.block a) => some a
  | _ => none

/-- Read the energy component as a `(current, max)` pair. -/
def getEnergy (w : World) (id : Nat) : Option (Int × Int) :=
  match w.getComponent id "energy" with
  | some (.energy c m) => some (c, m)
  | _ => none

/-- Read the status-effects map of an entity. -/
def getStatus (w : World) (id : Nat) : Option StatusMap :=
  match w.getComponent id "statusEffects" with
  | some (.statusEffects e) => some e
  | _ => none

/-- Write the health component (`health.current = …` style mutation). -/
def setHealth (w : World) (id : Nat) (cur mx : Int) : World :=
  w.updateComponent id (.health cur mx)

/-- Write the block component. -/
def setBlock (w : World) (id : Nat) (a : Int) : World :=
  w.updateComponent id (.block a)

/-- Write the energy component. -/
def setEnergy (w : World) (id : Nat) (cur mx : Int) : World :=
  w.updateComponent id (.energy cur mx)

/-- Write the status-effects map of an entity. -/
def setStatus (w : World) (id : Nat) (m : StatusMap) : World :=
  w.updateComponent id (.statusEffects m)

/-! ## Serialization (`World.serialize` / `World.deserialize`) -/

/-- The shape of `serialize()`'s output object: entity list, per-kind
component tables keyed by entity id, tag lists keyed by entity id.  In this
list model `Array.from(effects.entries())` is the entry list itself, so the
serialized component reuses `Component` with `statusEffects` read as its
entry array. -/
structure SerializedWorld where
  nextEntityId : Nat
  entities : List Nat
  components : List (String × List (Nat × Component))
  tags : List (Nat × List String)
  deriving DecidableEq

/-- `new Map(entries)`: fold `set` over the entry list. -/
def mapFromEntries (entries : StatusMap) : StatusMap :=
  entries.foldl (fun m p => alSet m p.1 p.2) []

/-- Deserialization of one component: `statusEffects` rebuilds its `Map`
from the serialized entry array; all other kinds are plain records. -/
def deserializeComponent : Component → Component
  | .statusEffects e => .statusEffects (mapFromEntries e)
  | c => c

/-- `World.serialize`. -/
def World.serialize (w : World) : SerializedWorld :=
  { nextEntityId := w.nextEntityId
    entities := w.entities
    components := w.components
    tags := w.entityTags }

/-- `World.deserialize`: `clear()` then rebuild entities, components and both
tag indexes from the dump.  JS objects enumerate integer-like keys in
ascending order; enumeration order is irrelevant here because every table is
rebuilt keyed, so we keep the dump's list order. -/
def World.deserialize (d : SerializedWorld) : World :=
  let entities := d.entities.foldl setAdd []
  let entityTags0 := d.entities.foldl (fun et id => alSet et id []) []
  let components :=
    d.components.foldl
      (fun cs p =>
        alSet cs p.1
          (p.2.foldl (fun m q => alSet m q.1 (deserializeComponent q.2)) []))
      []
  let tagged :=
    d.tags.foldl
      (fun (a : List (Nat × List String) × List (String × List Nat)) p =>
        let tagSet := p.2.foldl setAdd []
        (alSet a.1 p.1 tagSet,
         tagSet.foldl
           (fun te tag => alSet te tag (setAdd ((alGet te tag).getD []) p.1))
           a.2))
      (entityTags0, [])
  { nextEntityId := d.nextEntityId
    entities := entities
    components := components
    entityTags := tagged.1
    tagEntities := tagged.2 }

/-! ## Seeded RNG (`src/core/rng/SeededRNG.ts`, xorshift128+)

State is the pair `[state0, state1]` of 32-bit words, tracked as their
unsigned bit patterns (`Nat` values `< 2^32`); JS `<<`/`>>>`/`^`/`>>> 0`
become multiply-mod, divide, `Nat.xor` and `% 2^32`. -/

/-- An RNG stream's state word pair. -/
structure Rng where
  s0 : Nat
  s1 : Nat
  deriving DecidableEq

/-- One xorshift128+ step (`SeededRNG.next`), returning the 32-bit draw and
the successor state. -/
def rngNext (r : Rng) : Nat × Rng :=
  let s1 := r.s0
  let s0 := r.s1
  let s1 := s1 ^^^ ((s1 * 2 ^ 23) % 4294967296)
  let s1 := s1 ^^^ (s1 / 2 ^ 17)
  let s1 := s1 ^^^ s0
  let s1 := s1 ^^^ (s0 / 2 ^ 26)
  ((s0 + s1) % 4294967296, ⟨s0, s1⟩)

/-- `SeededRNG.randInt(min, maxExclusive)`:
`Math.floor(this.random() * (max - min)) + min`.  With `random() = n / 2^32`
exact and `n * (max - min) < 2^53`, the double product is exact, so the
floor is the exact integer floor division below. -/
def rngRandInt (r : Rng) (lo hi : Int) : Int × Rng :=
  let (n, r') := rngNext r
  (Int.fdiv ((n : Int) * (hi - lo)) 4294967296 + lo, r')

/-- `SeededRNG.pick`: uniform element of a list (the source throws on an
empty array; we return `none` there). -/
def rngPick {α : Type} (r : Rng) (l : List α) : Option α × Rng :=
  if l.isEmpty then (none, r)
  else
    let (i, r') := rngRandInt r 0 l.length
    (l.get? i.toNat, r')

/-! ## Ambient `Math.random()` oracle -/

/-- The denominator `2^53` of the ambient oracle's draws. -/
def ambDen : Nat := 9007199254740992

/-- Draw the next ambient `Math.random()` numerator (the drawn double is
`a / 2^53 ∈ [0,1)`, so numerators are `< 2^53`); an exhausted oracle
yields `0`. -/
def ambNext (amb : List Nat) : Nat × List Nat :=
  (amb.headD 0, amb.tail)

/-- `Math.floor(u * k)` for an ambient draw `u = a / 2^53` and a game-sized
integer `k`: the exact integer `(a * k) / 2^53`. -/
def ambFloorMul (a k : Nat) : Nat := a * k / ambDen

/-! ## Card content table (`src/combat/cards/CardTypes.ts` and
`CardDatabase.ts`)

Display-only fields (`name`, `description`, `flavor`) are never read by the
resolver or the state machine and are omitted; all gameplay-bearing fields
are kept.  `etype` is the effect's `type` tag and `ctype` the card's `type`
tag. -/

/-- A conditional predicate on an effect (read by no resolver branch; the
`conditional` effect kind falls into the logged-and-skipped default). -/
structure EffectCondition where
  ctype : String
  statusId : Option String := none
  threshold : Option Int := none
  comparison : Option String := none
  deriving DecidableEq

/-- One entry of a card's ordered effect list. -/
structure CardEffect where
  etype : String
  value : Int
  target : Option String := none
  statusId : Option String := none
  cardId : Option String := none
  times : Option Int := none
  condition : Option EffectCondition := none
  deriving DecidableEq

/-- An immutable card definition. -/
structure CardDefinition where
  id : String
  ctype : String
  rarity : String
  cost : Int
  costUpgraded : Option Int := none
  target : String
  effects : List CardEffect
  effectsUpgraded : Option (List CardEffect) := none
  keywords : List String := []
  deriving DecidableEq

/-- Shorthand constructors for the static effect records. -/
def dmgE (v : Int) : CardEffect := { etype := "damage", value := v }

/-- A self-targeted damage effect (HP-cost effects). -/
def dmgSelfE (v : Int) : CardEffect :=
  { etype := "damage", value := v, target := some "self" }

/-- A multi-hit damage effect. -/
def dmgTimesE (v t : Int) : CardEffect :=
  { etype := "damage", value := v, times := some t }

/-- A damage-all-enemies effect. -/
def dmgAllE (v : Int) : CardEffect := { etype := "damage_all", value := v }

/-- A block-gain effect. -/
def blockE (v : Int) : CardEffect := { etype := "block", value := v }

/-- A card-draw effect. -/
def drawE (v : Int) : CardEffect := { etype := "draw", value := v }

/-- An energy-gain effect. -/
def energyE (v : Int) : CardEffect := { etype := "energy", value := v }

/-- An apply-status effect. -/
def statusE (v : Int) (sid : String) : CardEffect :=
  { etype := "apply_status", value := v, statusId := some sid }

/-- An apply-status effect with an explicit all-enemies target override. -/
def statusAllE (v : Int) (sid : String) : CardEffect :=
  { etype := "apply_status", value := v, statusId := some sid,
    target := some "all_enemies" }

/-- An add-card-to-pile effect. -/
def addCardE (dest cid : String) : CardEffect :=
  { etype := "add_card_to_" ++ dest, value := 1, cardId := some cid }

/-- The card database in `addCard` insertion order
(`Array.from(CardDatabase.values())` order). -/
def cardDatabaseList : List CardDefinition :=
  [ { id := "strike", ctype := "attack", rarity := "starter", cost := 1,
      target := "enemy", effects := [dmgE 6],
      effectsUpgraded := some [dmgE 9] },
    { id := "defend", ctype := "skill", rarity := "starter", cost := 1,
      target := "self", effects := [blockE 5],
      effectsUpgraded := some [blockE 8] },
    { id := "bash", ctype := "attack", rarity := "starter", cost := 2,
      target := "enemy", effects := [dmgE 8, statusE 2 "vulnerable"],
      effectsUpgraded := some [dmgE 10, statusE 3 "vulnerable"] },
    { id := "anger", ctype := "attack", rarity := "common", cost := 0,
      target := "enemy", effects := [dmgE 6, addCardE "discard" "anger"],
      effectsUpgraded := some [dmgE 8, addCardE "discard" "anger"] },
    { id := "cleave", ctype := "attack", rarity := "common", cost := 1,
      target := "all_enemies", effects := [dmgAllE 8],
      effectsUpgraded := some [dmgAllE 11] },
    { id := "clothesline", ctype := "attack", rarity := "common", cost := 2,
      target := "enemy", effects := [dmgE 12, statusE 2 "weak"],
      effectsUpgraded := some [dmgE 14, statusE 3 "weak"] },
    { id := "headbutt", ctype := "attack", rarity := "common", cost := 1,
      target := "enemy", effects := [dmgE 9],
      effectsUpgraded := some [dmgE 12] },
    { id := "iron_wave", ctype := "attack", rarity := "common", cost := 1,
      target := "enemy", effects := [dmgE 5, blockE 5],
      effectsUpgraded := some [dmgE 7, blockE 7] },
    { id := "pommel_strike", ctype := "attack", rarity := "common", cost := 1,
      target := "enemy", effects := [dmgE 9, drawE 1],
      effectsUpgraded := some [dmgE 10, drawE 2] },
    { id := "sword_boomerang", ctype := "attack", rarity := "common", cost := 1,
      target := "random_enemy", effects := [dmgTimesE 3 3],
      effectsUpgraded := some [dmgTimesE 3 4] },
    { id := "twin_strike", ctype := "attack", rarity := "common", cost := 1,
      target := "enemy", effects := [dmgTimesE 5 2],
      effectsUpgraded := some [dmgTimesE 7 2] },
    { id := "wild_strike", ctype := "attack", rarity := "common", cost := 1,
      target := "enemy", effects := [dmgE 12, addCardE "draw" "wound"],
      effectsUpgraded := some [dmgE 17, addCardE "draw" "wound"] },
    { id := "armaments", ctype := "skill", rarity := "common", cost := 1,
      target := "self",
      effects := [blockE 5, { etype := "upgrade_random", value := 1 }],
      effectsUpgraded := some [blockE 5] },
    { id := "flex", ctype := "skill", rarity := "common", cost := 0,
      target := "self",
      effects := [statusE 2 "strength", statusE 2 "strength_down_eot"],
      effectsUpgraded :=
        some [statusE 4 "strength", statusE 4 "strength_down_eot"] },
    { id := "havoc", ctype := "skill", rarity := "common", cost := 1,
      costUpgraded := some 0, target := "none", effects := [],
      keywords := ["exhaust"] },
    { id := "shrug_it_off", ctype := "skill", rarity := "common", cost := 1,
      target := "self", effects := [blockE 8, drawE 1],
      effectsUpgraded := some [blockE 11, drawE 1] },
    { id := "true_grit", ctype := "skill", rarity := "common", cost := 1,
      target := "self",
      effects := [blockE 7, { etype := "exhaust", value := 1 }],
      effectsUpgraded := some [blockE 9] },
    { id := "warcry", ctype := "skill", rarity := "common", cost := 0,
      target := "self", effects := [drawE 1],
      effectsUpgraded := some [drawE 2], keywords := ["exhaust"] },
    { id := "blood_for_blood", ctype := "attack", rarity := "uncommon",
      cost := 4, target := "enemy", effects := [dmgE 18],
      effectsUpgraded := some [dmgE 22] },
    { id := "carnage", ctype := "attack", rarity := "uncommon", cost := 2,
      target := "enemy", effects := [dmgE 20],
      effectsUpgraded := some [dmgE 28], keywords := ["ethereal"] },
    { id := "dropkick", ctype := "attack", rarity := "uncommon", cost := 1,
      target := "enemy",
      effects :=
        [dmgE 5,
         { etype := "conditional", value := 1,
           condition :=
             some { ctype := "has_status", statusId := some "vulnerable" } }],
      effectsUpgraded :=
        some [dmgE 8,
              { etype := "conditional", value := 1,
                condition :=
                  some { ctype := "has_status",
                         statusId := some "vulnerable" } }] },
    { id := "hemokinesis", ctype := "attack", rarity := "uncommon", cost := 1,
      target := "enemy", effects := [dmgSelfE (-2), dmgE 15],
      effectsUpgraded := some [dmgSelfE (-2), dmgE 20] },
    { id := "pummel", ctype := "attack", rarity := "uncommon", cost := 1,
      target := "enemy", effects := [dmgTimesE 2 4],
      effectsUpgraded := some [dmgTimesE 2 5], keywords := ["exhaust"] },
    { id := "rampage", ctype := "attack", rarity := "uncommon", cost := 1,
      target := "enemy", effects := [dmgE 8],
      effectsUpgraded := some [dmgE 8] },
    { id := "uppercut", ctype := "attack", rarity := "uncommon", cost := 2,
      target := "enemy",
      effects := [dmgE 13, statusE 1 "weak", statusE 1 "vulnerable"],
      effectsUpgraded :=
        some [dmgE 13, statusE 2 "weak", statusE 2 "vulnerable"] },
    { id := "battle_trance", ctype := "skill", rarity := "uncommon", cost := 0,
      target := "self", effects := [drawE 3, statusE 1 "no_draw"],
      effectsUpgraded := some [drawE 4, statusE 1 "no_draw"] },
    { id := "bloodletting", ctype := "skill", rarity := "uncommon", cost := 0,
      target := "self", effects := [dmgSelfE (-3), energyE 2],
      effectsUpgraded := some [dmgSelfE (-3), energyE 3] },
    { id := "entrench", ctype := "skill", rarity := "uncommon", cost := 2,
      costUpgraded := some 1, target := "self", effects := [] },
    { id := "flame_barrier", ctype := "skill", rarity := "uncommon", cost := 2,
      target := "self", effects := [blockE 12, statusE 4 "flame_barrier"],
      effectsUpgraded := some [blockE 16, statusE 6 "flame_barrier"] },
    { id := "ghostly_armor", ctype := "skill", rarity := "uncommon", cost := 1,
      target := "self", effects := [blockE 10],
      effectsUpgraded := some [blockE 13], keywords := ["ethereal"] },
    { id := "intimidate", ctype := "skill", rarity := "uncommon", cost := 0,
      target := "all_enemies", effects := [statusAllE 1 "weak"],
      effectsUpgraded := some [statusAllE 2 "weak"], keywords := ["exhaust"] },
    { id := "offering", ctype := "skill", rarity := "uncommon", cost := 0,
      target := "self", effects := [dmgSelfE (-6), energyE 2, drawE 3],
      effectsUpgraded := some [dmgSelfE (-6), energyE 2, drawE 5],
      keywords := ["exhaust"] },
    { id := "shockwave", ctype := "skill", rarity := "uncommon", cost := 2,
      target := "all_enemies",
      effects := [statusAllE 3 "weak", statusAllE 3 "vulnerable"],
      effectsUpgraded := some [statusAllE 5 "weak", statusAllE 5 "vulnerable"],
      keywords := ["exhaust"] },
    { id := "bludgeon", ctype := "attack", rarity := "rare", cost := 3,
      target := "enemy", effects := [dmgE 32],
      effectsUpgraded := some [dmgE 42] },
    { id := "feed", ctype := "attack", rarity := "rare", cost := 1,
      target := "enemy", effects := [dmgE 10],
      effectsUpgraded := some [dmgE 12], keywords := ["exhaust"] },
    { id := "fiend_fire", ctype := "attack", rarity := "rare", cost := 2,
      target := "enemy", effects := [], keywords := ["exhaust"] },
    { id := "immolate", ctype := "attack", rarity := "rare", cost := 2,
      target := "all_enemies",
      effects := [dmgAllE 21, addCardE "discard" "burn"],
      effectsUpgraded := some [dmgAllE 28, addCardE "discard" "burn"] },
    { id := "reaper", ctype := "attack", rarity := "rare", cost := 2,
      target := "all_enemies", effects := [dmgAllE 4],
      effectsUpgraded := some [dmgAllE 5], keywords := ["exhaust"] },
    { id := "impervious", ctype := "skill", rarity := "rare", cost := 2,
      target := "self", effects := [blockE 30],
      effectsUpgraded := some [blockE 40], keywords := ["exhaust"] },
    { id := "limit_break", ctype := "skill", rarity := "rare", cost := 1,
      target := "self", effects := [], keywords := ["exhaust"] },
    { id := "second_wind", ctype := "skill", rarity := "rare", cost := 1,
      target := "self", effects := [], effectsUpgraded := some [] },
    { id := "demon_form", ctype := "power", rarity := "rare", cost := 3,
      target := "self", effects := [statusE 1 "demon_form"],
      effectsUpgraded := some [statusE 1 "demon_form_plus"] },
    { id := "inflame", ctype := "power", rarity := "uncommon", cost := 1,
      target := "self", effects := [statusE 2 "strength"],
      effectsUpgraded := some [statusE 3 "strength"] },
    { id := "metallicize", ctype := "power", rarity := "uncommon", cost := 1,
      target := "self", effects := [statusE 3 "metallicize"],
      effectsUpgraded := some [statusE 4 "metallicize"] },
    { id := "barricade", ctype := "power", rarity := "rare", cost := 3,
      costUpgraded := some 2, target := "self",
      effects := [statusE 1 "barricade"] },
    { id := "brutality", ctype := "power", rarity := "rare", cost := 0,
      target := "self", effects := [statusE 1 "brutality"],
      keywords := ["innate"] },
    { id := "corruption", ctype := "power", rarity := "rare", cost := 3,
      costUpgraded := some 2, target := "self",
      effects := [statusE 1 "corruption"] },
    { id := "juggernaut", ctype := "power", rarity := "rare", cost := 2,
      target := "self", effects := [statusE 5 "juggernaut"],
      effectsUpgraded := some [statusE 7 "juggernaut"] },
    { id := "wound", ctype := "status", rarity := "special", cost := -1,
      target := "none", effects := [], keywords := ["unplayable"] },
    { id := "burn", ctype := "status", rarity := "special", cost := -1,
      target := "none", effects := [], keywords := ["unplayable"] },
    { id := "dazed", ctype := "status", rarity := "special", cost := -1,
      target := "none", effects := [], keywords := ["unplayable", "ethereal"] },
    { id := "slimed", ctype := "status", rarity := "special", cost := 1,
      target := "none", effects := [], keywords := ["exhaust"] },
    { id := "curse_regret", ctype := "curse", rarity := "special", cost := -1,
      target := "none", effects := [], keywords := ["unplayable"] },
    { id := "curse_pain", ctype := "curse", rarity := "special", cost := -1,
      target := "none", effects := [], keywords := ["unplayable"] },
    { id := "quick_slash", ctype := "attack", rarity := "common", cost := 1,
      target := "enemy", effects := [dmgE 3, drawE 1],
      effectsUpgraded := some [dmgE 5, drawE 1] } ]

/-- `getCard` / `CardDatabase.get` (ids are unique, so first match equals
`Map` lookup). -/
def getCard (id : String) : Option CardDefinition :=
  cardDatabaseList.find? (fun c => c.id = id)

/-! ## Enemy content table (`src/combat/enemies/EnemyDatabase.ts`) -/

/-- An enemy definition (display-only `name`/`description` omitted). -/
structure EnemyDefinition where
  id : String
  healthMin : Int
  healthMax : Int
  pattern : List String
  aiType : String
  sprite : String
  isElite : Bool := false
  isBoss : Bool := false
  deriving DecidableEq

/-- The enemy database in `addEnemy` insertion order. -/
def enemyDatabaseList : List EnemyDefinition :=
  [ { id := "jaw_worm", healthMin := 40, healthMax := 44,
      pattern := ["attack:11", "defend:6", "buff:3"], aiType := "random",
      sprite := "jaw_worm" },
    { id := "cultist", healthMin := 48, healthMax := 54,
      pattern := ["buff:3", "attack:6"], aiType := "sequential",
      sprite := "cultist" },
    { id := "louse_red", healthMin := 10, healthMax := 15,
      pattern := ["attack:6", "attack:6", "buff:3"], aiType := "sequential",
      sprite := "louse_red" },
    { id := "louse_green", healthMin := 11, healthMax := 17,
      pattern := ["attack:6", "debuff:2", "attack:6"], aiType := "sequential",
      sprite := "louse_green" },
    { id := "acid_slime_m", healthMin := 28, healthMax := 32,
      pattern := ["attack:7", "debuff:1", "attack:7"], aiType := "sequential",
      sprite := "slime_acid_m" },
    { id := "spike_slime_m", healthMin := 28, healthMax := 32,
      pattern := ["attack:8", "defend:5", "attack:8"], aiType := "sequential",
      sprite := "slime_spike_m" },
    { id := "fungi_beast", healthMin := 22, healthMax := 28,
      pattern := ["buff:3", "attack:6", "attack:6"], aiType := "sequential",
      sprite := "fungi_beast" },
    { id := "looter", healthMin := 44, healthMax := 48,
      pattern := ["attack:10", "attack:10", "defend:6", "escape"],
      aiType := "sequential", sprite := "looter" },
    { id := "gremlin_nob", healthMin := 82, healthMax := 86,
      pattern := ["buff:2", "attack:14", "attack:16", "attack:16"],
      aiType := "sequential", sprite := "gremlin_nob", isElite := true },
    { id := "lagavulin", healthMin := 109, healthMax := 111,
      pattern := ["sleep", "sleep", "attack:18", "debuff:2", "attack:18"],
      aiType := "sequential", sprite := "lagavulin", isElite := true },
    { id := "sentries", healthMin := 38, healthMax := 42,
      pattern := ["attack:9", "defend:9", "attack:9"],
      aiType := "sequential", sprite := "sentry", isElite := true },
    { id := "slime_boss", healthMin := 140, healthMax := 140,
      pattern := ["attack:35", "attack:35", "split"],
      aiType := "sequential", sprite := "slime_boss", isBoss := true },
    { id := "the_guardian", healthMin := 240, healthMax := 240,
      pattern := ["attack:32", "defend:20", "attack:32", "mode_shift"],
      aiType := "sequential", sprite := "the_guardian", isBoss := true },
    { id := "hexaghost", healthMin := 250, healthMax := 250,
      pattern := ["activate", "attack:6x6", "attack:2x6", "inferno"],
      aiType := "sequential", sprite := "hexaghost", isBoss := true },
    { id := "chosen", healthMin := 95, healthMax := 99,
      pattern := ["debuff:3", "attack:12", "attack:12", "hex"],
      aiType := "sequential", sprite := "chosen" },
    { id := "byrd", healthMin := 25, healthMax := 31,
      pattern := ["caw", "attack:12", "attack:1x5"],
      aiType := "sequential", sprite := "byrd" },
    { id := "snake_plant", healthMin := 75, healthMax := 79,
      pattern := ["debuff:2", "attack:7x3", "defend:12"],
      aiType := "sequential", sprite := "snake_plant" },
    { id := "snecko", healthMin := 114, healthMax := 120,
      pattern := ["confusion", "attack:15", "attack:8x3"],
      aiType := "sequential", sprite := "snecko" },
    { id := "gremlin_leader", healthMin := 140, healthMax := 148,
      pattern := ["summon", "attack:6x3", "buff:5"],
      aiType := "sequential", sprite := "gremlin_leader", isElite := true },
    { id := "book_of_stabbing", healthMin := 160, healthMax := 168,
      pattern := ["attack:21", "attack:24", "multi_stab"],
      aiType := "sequential", sprite := "book_of_stabbing", isElite := true },
    { id := "slavers", healthMin := 46, healthMax := 50,
      pattern := ["attack:12", "debuff:1", "attack:12"],
      aiType := "sequential", sprite := "slaver", isElite := true },
    { id := "bronze_automaton", healthMin := 300, healthMax := 300,
      pattern := ["spawn_orbs", "attack:50", "hyper_beam"],
      aiType := "sequential", sprite := "bronze_automaton", isBoss := true },
    { id := "the_champ", healthMin := 420, healthMax := 420,
      pattern := ["attack:18", "taunt", "attack:22", "execute"],
      aiType := "conditional", sprite := "the_champ", isBoss := true },
    { id := "collector", healthMin := 282, healthMax := 282,
      pattern := ["summon", "attack:15", "buff:3", "mega_debuff"],
      aiType := "sequential", sprite := "collector", isBoss := true } ]

/-- `getEnemy` / `EnemyDatabase.get`. -/
def getEnemy (id : String) : Option EnemyDefinition :=
  enemyDatabaseList.find? (fun e => e.id = id)

/-- Total wrapper around `World.addComponent` for call sites that add
components to a freshly created entity, where the unknown-entity throw is
unreachable; the `getD` branch is dead padding. -/
def addComp (w : World) (id : Nat) (c : Component) : World :=
  (w.addComponent id c).getD w

/-- The enemy starting-health roll of `createEnemyEntity`
(`EnemyDatabase.ts` line 338):
`health[0] + Math.floor(Math.random() * (health[1] - health[0] + 1))`.
It consumes the ambient `Math.random()` oracle, not the seeded combat
stream. -/
def enemyHealthRoll (d : EnemyDefinition) (u : Nat) : Int :=
  d.healthMin + (ambFloorMul u (d.healthMax - d.healthMin + 1).toNat : Int)

/-- `createEnemyEntity`: builds the enemy entity with tags and all eight
components; returns `none` for an unknown enemy id. -/
def createEnemyEntity (w : World) (enemyId : String) (slot : Int)
    (amb : List Nat) : Option Nat × World × List Nat :=
  match getEnemy enemyId with
  | none => (none, w, amb)
  | some d =>
    let (entityId, w) := w.createEntity
    let w := w.addTag entityId "enemy"
    let w := if d.isElite then w.addTag entityId "elite" else w
    let w := if d.isBoss then w.addTag entityId "boss" else w
    let (u, amb) := ambNext amb
    let health := enemyHealthRoll d u
    let w := addComp w entityId (.health health health)
    let w := addComp w entityId (.block 0)
    let w := addComp w entityId (.statusEffects [])
    let w := addComp w entityId (.intent "unknown" 0 none)
    let w := addComp w entityId (.enemyAI d.pattern 0 d.aiType)
    let w := addComp w entityId (.name d.id)
    let w := addComp w entityId (.position (600 + slot * 150) 400 slot)
    let w := addComp w entityId (.render d.sprite 1)
    (some entityId, w, amb)

/-! ## Combat rewards, phases, events -/

/-- The rewards payload populated on victory. -/
structure CombatRewards where
  gold : Int
  cardChoices : List String
  potions : List String
  relicId : Option String
  deriving DecidableEq

/-- The combat phases of `CombatStateMachine`. -/
inductive CombatPhase where
  | start
  | playerTurnStart
  | playerTurn
  | playerTurnEnd
  | enemyTurnStart
  | enemyTurn
  | enemyTurnEnd
  | victory
  | defeat
  deriving DecidableEq

/-- The event payloads emitted on the bus (`GameEvents`). -/
inductive Event where
  | combatStart (enemies : List Nat) (floor : Int)
  | damage (sourceId targetId : Nat) (amount blocked : Int) (isAttack : Bool)
  | heal (targetId : Nat) (amount : Int)
  | blockGained (entityId : Nat) (amount : Int)
  | cardDrawn (entityId : Nat) (count : Int)
  | energyChanged (entityId : Nat) (change : Int)
  | statusApplied (targetId : Nat) (statusId : String) (stackCount : Int)
  | statusTriggered (targetId : Nat) (statusId : String)
  | cardPlayed (cardId : String) (sourceId : Nat) (targetId : Option Nat)
      (cost : Int)
  | turnStart (entityId : Nat) (turnNumber : Int)
  | turnEnd (entityId : Nat) (turnNumber : Int)
  | combatEnd (victory : Bool) (rewards : Option CombatRewards)
  | addCard (cardId : String) (destination : String)
  deriving DecidableEq

/-! ## Game store piles (`src/core/store.ts`: `hand`, `drawPile`,
`discardPile` and the pile actions the combat core drives) -/

/-- The pile slice of the zustand game store. -/
structure Store where
  hand : List String
  drawPile : List String
  discardPile : List String
  deriving DecidableEq

/-- Swap two positions of a list (the JS destructuring swap). -/
def jsSwap (l : List String) (i j : Nat) : List String :=
  let vi := l.getD i ""
  let vj := l.getD j ""
  (l.set i vj).set j vi

/-- The Fisher–Yates loop of `drawCards`' reshuffle, from index `j` downward
(`for (let j = len-1; j > 0; j--)`), consuming one ambient `Math.random()`
per step. -/
def jsShuffleAux : Nat → List String → List Nat → List String × List Nat
  | 0, l, amb => (l, amb)
  | j + 1, l, amb =>
    let (u, amb) := ambNext amb
    let k := ambFloorMul u (j + 2)
    jsShuffleAux j (jsSwap l (j + 1) k) amb

/-- In-place Fisher–Yates shuffle with ambient `Math.random()`. -/
def jsShuffle (l : List String) (amb : List Nat) : List String × List Nat :=
  jsShuffleAux (l.length - 1) l amb

/-- The body of the `drawCards` loop: refill-and-shuffle from the discard
pile when the draw pile runs out (breaking when both are empty), then
`pop()` the draw pile's last element into the hand. -/
def drawCardsLoop :
    Nat → List String → List String → List String → List Nat →
      List String × List String × List String × List Nat
  | 0, h, d, dis, amb => (h, d, dis, amb)
  | n + 1, h, d, dis, amb =>
    if d.isEmpty then
      if dis.isEmpty then (h, d, dis, amb)
      else
        let (d', amb') := jsShuffle (d ++ dis) amb
        match d'.getLast? with
        | some c => drawCardsLoop n (h ++ [c]) d'.dropLast [] amb'
        | none => drawCardsLoop n h d'.dropLast [] amb'
    else
      match d.getLast? with
      | some c => drawCardsLoop n (h ++ [c]) d.dropLast dis amb
      | none => drawCardsLoop n h d.dropLast dis amb

/-- `store.drawCards(count)`. -/
def Store.drawCards (s : Store) (count : Int) (amb : List Nat) :
    Store × List Nat :=
  let r := drawCardsLoop count.toNat s.hand s.drawPile s.discardPile amb
  (⟨r.1, r.2.1, r.2.2.1⟩, r.2.2.2)

/-- `store.playCard(handIndex)`: move the card at the index from hand to
discard; out-of-range indexes leave the store unchanged. -/
def Store.playCard (s : Store) (idx : Nat) : Store :=
  match s.hand.get? idx with
  | some c => ⟨s.hand.eraseIdx idx, s.drawPile, s.discardPile ++ [c]⟩
  | none => s

/-- `store.discardHand()`. -/
def Store.discardHand (s : Store) : Store :=
  ⟨[], s.drawPile, s.discardPile ++ s.hand⟩

/-! ## The combat machine state

One record bundling the `CombatStateMachine`'s `state` field, the owned
`World`, the 'combat' RNG stream, the game store's piles, the emitted event
log and the ambient `Math.random()` oracle. -/

/-- The full combat-machine state. -/
structure Machine where
  phase : CombatPhase
  turn : Int
  playerId : Nat
  enemyIds : List Nat
  selectedCardIndex : Option Nat
  selectedTargetId : Option Nat
  combatRewards : Option CombatRewards
  world : World
  rng : Rng
  store : Store
  events : List Event
  amb : List Nat

/-- `events.emit`: append to the log and synchronously run the one listener
the machine registers (`CARD_DRAWN` → `store.drawCards(count)`; the
`combat:add_card` listener's switch has empty cases and does nothing). -/
def Machine.emit (m : Machine) (e : Event) : Machine :=
  let m' := { m with events := m.events ++ [e] }
  match e with
  | .cardDrawn _ count =>
    let (s, amb) := m'.store.drawCards count m'.amb
    { m' with store := s, amb := amb }
  | _ => m'

/-! ## The effect resolver (`CardEffectResolver`) -/

/-- Truthiness of `status?.effects.get(k)` through an optional component. -/
def optTruthy (o : Option StatusMap) (k : String) : Bool :=
  match o with
  | some s => sTruthy s k
  | none => false

/-- Value of `status?.effects.get(k) || 0` through an optional component. -/
def optGetD (o : Option StatusMap) (k : String) : Int :=
  match o with
  | some s => sGetD s k
  | none => 0

/-- The staged `damage` computation at the top of
`CardEffectResolver.applyDamage`: strength and weak on the attacker (attack
only), vulnerable on the target (attack only), then the intangible
override.  `Math.floor(d * 0.75)` and `Math.floor(d * 1.5)` are
`Int.fdiv (3*d) 4` and `Int.fdiv (3*d) 2`, exact for double arithmetic on
integral damage. -/
def modifiedDamage (srcStatus tgtStatus : Option StatusMap)
    (baseDamage : Int) (isAttack : Bool) : Int :=
  let damage :=
    if isAttack then
      let d1 := baseDamage + optGetD srcStatus "strength"
      if optTruthy srcStatus "weak" then Int.fdiv (3 * d1) 4 else d1
    else baseDamage
  let damage :=
    if isAttack && optTruthy tgtStatus "vulnerable" then
      Int.fdiv (3 * damage) 2
    else damage
  if optTruthy tgtStatus "intangible" then 1 else damage

/-- The `Apply block first` stage of `CardEffectResolver.applyDamage`:
returns the world after block absorption, the blocked amount, and the
remaining damage. -/
def blockStage (w : World) (targetId : Nat) (damage : Int) :
    World × Int × Int :=
  match getBlock w targetId with
  | some amt =>
    if amt > 0 then
      let blocked := min amt damage
      (setBlock w targetId (amt - blocked), blocked, damage - blocked)
    else (w, 0, damage)
  | none => (w, 0, damage)

/-- The `Apply remaining damage to health` stage of
`CardEffectResolver.applyDamage`: positive remaining damage hits health,
clamped at zero. -/
def healthStage (w : World) (targetId : Nat) (damage : Int) : World :=
  if damage > 0 then
    match getHealth w targetId with
    | some hm => setHealth w targetId (max 0 (hm.1 - damage)) hm.2
    | none => w
  else w

/-- The rest of the non-recursive body of
`CardEffectResolver.applyDamage`: the modifier stages, block absorption,
the clamped health subtraction, and the damage notification. -/
def applyHit (sourceId targetId : Nat) (baseDamage : Int) (isAttack : Bool)
    (m : Machine) : Machine :=
  let damage := modifiedDamage (getStatus m.world sourceId)
    (getStatus m.world targetId) baseDamage isAttack
  let bRes := blockStage m.world targetId damage
  let w := healthStage bRes.1 targetId bRes.2.2
  Machine.emit { m with world := w }
    (.damage sourceId targetId baseDamage bRes.2.1 isAttack)

/-- `CardEffectResolver.applyDamage`: one hit, then — only for attack-type
damage against a target whose `thorns` is truthy — a recursive reflected hit
of the thorns stacks back at the attacker, flagged non-attack.  The status
map is unchanged by `applyHit`, so reading thorns after the hit equals the
source's read of the live component before it. -/
def applyDamage (sourceId targetId : Nat) (baseDamage : Int)
    (isAttack : Bool) (m : Machine) : Machine :=
  let m1 := applyHit sourceId targetId baseDamage isAttack m
  let tgtStatus := getStatus m1.world targetId
  if h : isAttack = true ∧ optTruthy tgtStatus "thorns" = true then
    let thornsDamage := optGetD tgtStatus "thorns"
    applyDamage targetId sourceId thornsDamage false m1
  else m1
termination_by isAttack.toNat
decreasing_by simp [h.1]

/-- `CardEffectResolver.resolveDamage`: negative magnitude or an explicit
self target routes `|value|` to the source as non-attack damage; otherwise
the resolved target (re-picked among tagged enemies by ambient
`Math.random()` for `random_enemy` cards) takes attack damage; no target is
a logged no-op. -/
def resolveDamage (effect : CardEffect) (sourceId : Nat)
    (targetId : Option Nat) (cardTarget : String) (m : Machine) : Machine :=
  if effect.value < 0 || effect.target == some "self" then
    applyDamage sourceId sourceId |effect.value| false m
  else
    let tRes : Option Nat × Machine :=
      if cardTarget = "random_enemy" then
        let enemies := m.world.getEntitiesByTag "enemy"
        if enemies.length > 0 then
          let (u, amb) := ambNext m.amb
          (enemies.get? (ambFloorMul u enemies.length), { m with amb := amb })
        else (targetId, m)
      else (targetId, m)
    match tRes.1 with
    | none => tRes.2
    | some t => applyDamage sourceId t effect.value true tRes.2

/-- `CardEffectResolver.resolveDamageAll`: the single-target attack math on
every tagged enemy, in tag-index order. -/
def resolveDamageAll (effect : CardEffect) (sourceId : Nat) (m : Machine) :
    Machine :=
  (m.world.getEntitiesByTag "enemy").foldl
    (fun m enemyId => applyDamage sourceId enemyId effect.value true m) m

/-- The `blockAmount` computation at the top of
`CardEffectResolver.resolveBlock`: base plus dexterity, reduced 25%
(floored, `Math.floor(a * 0.75) = Int.fdiv (3*a) 4`) under frail. -/
def blockGainAmount (srcStatus : Option StatusMap) (v : Int) : Int :=
  let blockAmount := v + optGetD srcStatus "dexterity"
  if optTruthy srcStatus "frail" then Int.fdiv (3 * blockAmount) 4
  else blockAmount

/-- `CardEffectResolver.resolveBlock`: the modified gain, floored at zero
when added to the source's block. -/
def resolveBlock (effect : CardEffect) (sourceId : Nat) (m : Machine) :
    Machine :=
  let blockAmount := blockGainAmount (getStatus m.world sourceId) effect.value
  let w :=
    match getBlock m.world sourceId with
    | some amt => setBlock m.world sourceId (amt + max 0 blockAmount)
    | none => m.world
  Machine.emit { m with world := w } (.blockGained sourceId blockAmount)

/-- `CardEffectResolver.resolveDraw`: suppressed under `no_draw`, otherwise
emits `CARD_DRAWN` (whose machine listener performs the store draw). -/
def resolveDraw (effect : CardEffect) (sourceId : Nat) (m : Machine) :
    Machine :=
  if optTruthy (getStatus m.world sourceId) "no_draw" then m
  else m.emit (.cardDrawn sourceId effect.value)

/-- `CardEffectResolver.resolveEnergy`. -/
def resolveEnergy (effect : CardEffect) (sourceId : Nat) (m : Machine) :
    Machine :=
  let w :=
    match getEnergy m.world sourceId with
    | some em => setEnergy m.world sourceId (em.1 + effect.value) em.2
    | none => m.world
  Machine.emit { m with world := w } (.energyChanged sourceId effect.value)

/-- The apply-the-stack tail of `resolveApplyStatus`'s per-target loop. -/
def applyStatusTo (m : Machine) (target : Nat) (sm : StatusMap)
    (sid : String) (v : Int) : Machine :=
  let current := sGetD sm sid
  let w := setStatus m.world target (alSet sm sid (current + v))
  Machine.emit { m with world := w } (.statusApplied target sid v)

/-- `CardEffectResolver.resolveApplyStatus`: resolve the target set, then per
target either consume one artifact stack (debuff names only, artifact
truthy and positive) or add the stacks. -/
def resolveApplyStatus (effect : CardEffect) (sourceId : Nat)
    (targetId : Option Nat) (cardTarget : String) (m : Machine) : Machine :=
  match effect.statusId with
  | none => m
  | some sid =>
    let targets : List Nat :=
      if effect.target == some "all_enemies" || cardTarget == "all_enemies"
      then m.world.getEntitiesByTag "enemy"
      else if effect.target == some "self" || cardTarget == "self" then
        [sourceId]
      else
        match targetId with
        | some t => [t]
        | none => []
    targets.foldl
      (fun m target =>
        match getStatus m.world target with
        | none => m
        | some sm =>
          let isDebuff :=
            ["vulnerable", "weak", "frail", "poison"].contains sid
          if isDebuff && sTruthy sm "artifact" then
            let artifact := sGetD sm "artifact"
            if artifact > 0 then
              let w :=
                setStatus m.world target (alSet sm "artifact" (artifact - 1))
              Machine.emit { m with world := w }
                (.statusTriggered target "artifact")
            else applyStatusTo m target sm sid effect.value
          else applyStatusTo m target sm sid effect.value)
      m

/-- `CardEffectResolver.resolveHeal`: clamped to max health. -/
def resolveHeal (effect : CardEffect) (sourceId : Nat)
    (targetId : Option Nat) (m : Machine) : Machine :=
  let target := if effect.target == some "self" then some sourceId else targetId
  match target with
  | none => m
  | some t =>
    let w :=
      match getHealth m.world t with
      | some hm => setHealth m.world t (min hm.2 (hm.1 + effect.value)) hm.2
      | none => m.world
    Machine.emit { m with world := w } (.heal t effect.value)

/-- `CardEffectResolver.resolveAddCard`: pile changes are delegated by
event to the owning layer. -/
def resolveAddCard (effect : CardEffect) (m : Machine) : Machine :=
  match effect.cardId with
  | none => m
  | some cid =>
    m.emit (.addCard cid (effect.etype.replace "add_card_to_" ""))

/-- One iteration of `resolveEffect`'s switch; unrecognized kinds are logged
and skipped. -/
def resolveEffectOnce (effect : CardEffect) (sourceId : Nat)
    (targetId : Option Nat) (card : CardDefinition) (m : Machine) : Machine :=
  match effect.etype with
  | "damage" => resolveDamage effect sourceId targetId card.target m
  | "damage_all" => resolveDamageAll effect sourceId m
  | "block" => resolveBlock effect sourceId m
  | "draw" => resolveDraw effect sourceId m
  | "energy" => resolveEnergy effect sourceId m
  | "apply_status" => resolveApplyStatus effect sourceId targetId card.target m
  | "heal" => resolveHeal effect sourceId targetId m
  | "add_card_to_discard" => resolveAddCard effect m
  | "add_card_to_draw" => resolveAddCard effect m
  | "add_card_to_hand" => resolveAddCard effect m
  | _ => m

/-- `CardEffectResolver.resolveEffect`: repeats `effect.times || 1` times. -/
def resolveEffect (effect : CardEffect) (sourceId : Nat)
    (targetId : Option Nat) (card : CardDefinition) (m : Machine) : Machine :=
  let times : Int :=
    match effect.times with
    | some t => if t = 0 then 1 else t
    | none => 1
  (List.range times.toNat).foldl
    (fun m _ => resolveEffectOnce effect sourceId targetId card m) m

/-- `CardEffectResolver.resolveCard`: unknown card ids are a logged no-op;
an upgraded play with a defined upgraded list uses it (a present empty list
is truthy in JS); then the card-played notification. -/
def resolveCard (cardId : String) (sourceId : Nat) (targetId : Option Nat)
    (upgraded : Bool) (m : Machine) : Machine :=
  match getCard cardId with
  | none => m
  | some card =>
    let effects :=
      if upgraded then
        match card.effectsUpgraded with
        | some e => e
        | none => card.effects
      else card.effects
    let m :=
      effects.foldl (fun m e => resolveEffect e sourceId targetId card m) m
    m.emit (.cardPlayed cardId sourceId targetId card.cost)

/-! ## The combat state machine (`CombatStateMachine`)

`transitionTo(p)` sets `state.phase = p` and dispatches the handler; each
handler below is split into its switch-case body (`…Steps`) and a chained
version that performs the tail `transitionTo` exactly as the source does. -/

/-- `onDefeat`. -/
def onDefeat (m : Machine) : Machine := m.emit (.combatEnd false none)

/-- The loop of `generateCardRewards`: rarity roll at 60% / 33% / 7%
(`roll < 0.6`, `roll < 0.93`), then a pick from the chosen pool when it is
nonempty.  The roll is `n / 2^32` exactly; neither `0.6·2^32` nor
`0.93·2^32` is an integer and the doubles nearest 0.6 and 0.93 differ from
them by far less than the roll's `2^-32` granularity, so `roll < 0.6` is
exactly `5n < 3·2^32` and `roll < 0.93` exactly `100n < 93·2^32`. -/
def generateCardRewardsLoop (commons uncommons rares : List CardDefinition) :
    Nat → Rng → List String → List String × Rng
  | 0, rng, acc => (acc, rng)
  | n + 1, rng, acc =>
    let (roll, rng) := rngNext rng
    let pool :=
      if roll * 5 < 3 * 4294967296 then commons
      else if roll * 100 < 93 * 4294967296 then uncommons
      else rares
    if pool.isEmpty then generateCardRewardsLoop commons uncommons rares n rng acc
    else
      let (c, rng) := rngPick rng pool
      match c with
      | some card =>
        generateCardRewardsLoop commons uncommons rares n rng (acc ++ [card.id])
      | none => generateCardRewardsLoop commons uncommons rares n rng acc

/-- `generateCardRewards(count)`: pools are the database values filtered by
rarity, in insertion order. -/
def generateCardRewards (count : Nat) (rng : Rng) : List String × Rng :=
  generateCardRewardsLoop
    (cardDatabaseList.filter (fun c => c.rarity == "common"))
    (cardDatabaseList.filter (fun c => c.rarity == "uncommon"))
    (cardDatabaseList.filter (fun c => c.rarity == "rare"))
    count rng []

/-- `generateRelicReward` (placeholder in the source). -/
def generateRelicReward : String := "vajra"

/-- `onVictory`: the elite check ranges over the *current* `enemyIds` list;
gold and the three card choices consume the combat stream in source order;
the relic is granted only on the elite check. -/
def onVictory (m : Machine) : Machine :=
  let isElite := m.enemyIds.any (fun id => m.world.hasTag id "elite")
  let (g, rng) := rngRandInt m.rng 10 20
  let (choices, rng) := generateCardRewards 3 rng
  let rewards : CombatRewards :=
    { gold := g + (if isElite then 25 else 0)
      cardChoices := choices
      potions := []
      relicId := if isElite then some generateRelicReward else none }
  let m := { m with rng := rng, combatRewards := some rewards }
  m.emit (.combatEnd true (some rewards))

/-- `checkForDeaths`: filter the enemy list to entities with positive
health, destroying the rest, then transition to victory when none remain. -/
def checkForDeaths (m : Machine) : Machine :=
  let r :=
    m.enemyIds.foldl
      (fun (acc : List Nat × World) enemyId =>
        match getHealth acc.2 enemyId with
        | some hm =>
          if hm.1 > 0 then (acc.1 ++ [enemyId], acc.2)
          else (acc.1, acc.2.destroyEntity enemyId)
        | none => (acc.1, acc.2.destroyEntity enemyId))
      ([], m.world)
  let m := { m with enemyIds := r.1, world := r.2 }
  if r.1.isEmpty then onVictory { m with phase := .victory } else m

/-- `forceDeathCheck` (the public re-check hook). -/
def forceDeathCheck (m : Machine) : Machine := checkForDeaths m

/-- `processPlayerTurnStartEffects`: demon-form strength, brutality's HP
loss and draw, the poison tick on each enemy, then the death check.  An
absent player status component returns early, exactly as the source's
`if (!statusEffects) return`. -/
def processPlayerTurnStartEffects (m : Machine) : Machine :=
  match getStatus m.world m.playerId with
  | none => m
  | some se0 =>
    let se :=
      if sTruthy se0 "demon_form" then
        alSet se0 "strength" (sGetD se0 "strength" + 2)
      else se0
    let se :=
      if sTruthy se "demon_form_plus" then
        alSet se "strength" (sGetD se "strength" + 3)
      else se
    let w := setStatus m.world m.playerId se
    let m :=
      if sTruthy se "brutality" then
        let w :=
          match getHealth w m.playerId with
          | some hm => setHealth w m.playerId (hm.1 - 1) hm.2
          | none => w
        let (s, amb) := m.store.drawCards 1 m.amb
        { m with world := w, store := s, amb := amb }
      else { m with world := w }
    let m :=
      m.enemyIds.foldl
        (fun m enemyId =>
          match getStatus m.world enemyId with
          | none => m
          | some es =>
            match alGet es "poison" with
            | some p =>
              if 0 < p then
                let w :=
                  match getHealth m.world enemyId with
                  | some hm => setHealth m.world enemyId (hm.1 - p) hm.2
                  | none => m.world
                let es := alSet es "poison" (p - 1)
                let es := if p - 1 ≤ 0 then alErase es "poison" else es
                { m with world := setStatus w enemyId es }
              else m
            | none => m)
        m
    checkForDeaths m

/-- The body of `onPlayerTurnStart`: turn counter, energy reset, block reset
unless barricade, the turn-start effects, the five-card draw and the
turn-start notification. -/
def onPlayerTurnStartSteps (m : Machine) : Machine :=
  let m := { m with turn := m.turn + 1 }
  let w :=
    match getEnergy m.world m.playerId with
    | some em => setEnergy m.world m.playerId em.2 em.2
    | none => m.world
  let w :=
    if !optTruthy (getStatus w m.playerId) "barricade" then
      match getBlock w m.playerId with
      | some _ => setBlock w m.playerId 0
      | none => w
    else w
  let m := processPlayerTurnStartEffects { m with world := w }
  let (s, amb) := m.store.drawCards 5 m.amb
  let m := { m with store := s, amb := amb }
  m.emit (.turnStart m.playerId m.turn)

/-- `transitionTo('player_turn_start')`: set the phase, run the handler,
whose tail `transitionTo('player_turn')` sets the phase again (it does so
even when the turn-start death check has already reached victory). -/
def onPlayerTurnStart (m : Machine) : Machine :=
  let m := onPlayerTurnStartSteps { m with phase := .playerTurnStart }
  { m with phase := .playerTurn }

/-- The `toDecrement` loop body of `decrementTurnEffects`: a positive
counter decrements and is removed on reaching zero. -/
def decStep (eff : StatusMap) (effectId : String) : StatusMap :=
  match alGet eff effectId with
  | some v =>
    if v > 0 then
      let eff2 := alSet eff effectId (v - 1)
      if v - 1 ≤ 0 then alErase eff2 effectId else eff2
    else eff
  | none => eff

/-- The `toRemove` loop body of `decrementTurnEffects`:
`strength_down_eot` first pays its stored magnitude back out of strength,
then the entry is removed outright. -/
def remStep (eff : StatusMap) (effectId : String) : StatusMap :=
  if alHas eff effectId then
    let eff2 :=
      if effectId = "strength_down_eot" then
        alSet eff "strength" (sGetD eff "strength" - sGetD eff effectId)
      else eff
    alErase eff2 effectId
  else eff

/-- `decrementTurnEffects`: the five turn-scoped counters decrement and are
removed at zero; the outright removals follow. -/
def decrementTurnEffects (effects : StatusMap) : StatusMap :=
  ["flame_barrier", "rage", "strength_down_eot"].foldl remStep
    (["vulnerable", "weak", "frail", "intangible", "no_draw"].foldl decStep
      effects)

/-- One enemy's decrement in `onEnemyTurnEnd`'s loop. -/
def enemyTurnEndStep (m : Machine) (enemyId : Nat) : Machine :=
  match getStatus m.world enemyId with
  | some se =>
    { m with world := setStatus m.world enemyId (decrementTurnEffects se) }
  | none => m

/-- The body of `onEnemyTurnEnd`: decrement the turn-scoped statuses of
every listed enemy. -/
def onEnemyTurnEndSteps (m : Machine) : Machine :=
  m.enemyIds.foldl enemyTurnEndStep m

/-- `transitionTo('enemy_turn_end')` and the handler's tail transition into
the next player turn. -/
def onEnemyTurnEnd (m : Machine) : Machine :=
  let m := onEnemyTurnEndSteps { m with phase := .enemyTurnEnd }
  onPlayerTurnStart { m with phase := .playerTurnStart }

/-- Leading-digits integer parse: `parseInt(s) || 0` for the pattern value
strings of the content tables (which are plain digit runs or words). -/
def parseIntOr0 (s : Option String) : Int :=
  match s with
  | none => 0
  | some str =>
    let digits := str.toList.takeWhile Char.isDigit
    digits.foldl (fun n c => n * 10 + ((c.toNat : Int) - 48)) 0

/-- All-digit nonempty string test. -/
def allDigits (s : String) : Bool :=
  !s.isEmpty && s.toList.all Char.isDigit

/-- The `/(\d+)x(\d+)/` multi-hit match, specialized to the content tables'
value strings, which are either digit runs or exactly `AxB`. -/
def matchMultiHit (s : Option String) : Option (Int × Int) :=
  match s with
  | none => none
  | some str =>
    match str.splitOn "x" with
    | [a, b] =>
      if allDigits a && allDigits b then
        some (parseIntOr0 (some a), parseIntOr0 (some b))
      else none
    | _ => none

/-- `parseActionToIntent`: `"attack:6x3"` style strings into the parsed
intent component. -/
def parseActionToIntent (action : String) : Component :=
  let parts := action.splitOn ":"
  let ptype := parts.headD ""
  let valueStr := parts.get? 1
  match matchMultiHit valueStr with
  | some vc => .intent ptype vc.1 (some vc.2)
  | none => .intent ptype (parseIntOr0 valueStr) none

/-- `calculateEnemyIntents`: sequential enemies take
`pattern[index % length]`, random enemies a seeded-stream pick, anything
else `pattern[0]`; the parsed triple is stored on an existing intent
component. -/
def calculateEnemyIntents (m : Machine) : Machine :=
  m.enemyIds.foldl
    (fun m enemyId =>
      match m.world.getComponent enemyId "enemyAI" with
      | some (.enemyAI pattern patternIndex aiType) =>
        let r : String × Machine :=
          if aiType = "sequential" then
            (pattern.getD (patternIndex.emod pattern.length).toNat "", m)
          else if aiType = "random" then
            let (a, rng) := rngPick m.rng pattern
            (a.getD "", { m with rng := rng })
          else (pattern.getD 0 "", m)
        let m := r.2
        match m.world.getComponent enemyId "intent" with
        | some (.intent ..) =>
          { m with
              world := m.world.updateComponent enemyId
                (parseActionToIntent r.1) }
        | _ => m
      | _ => m)
    m

/-- The fake card context `{ target: 'enemy' }` that `executeEnemyAction`
hands the resolver. -/
def enemyActionContext : CardDefinition :=
  { id := "", ctype := "", rarity := "", cost := 0, target := "enemy",
    effects := [] }

/-- `executeEnemyAction`: run the stored intent `multiHit || 1` times —
attacks via the resolver's damage effect, defend/buff as direct block and
strength gains, debuff as a direct weak increment on the player. -/
def executeEnemyAction (enemyId : Nat) (action : String) (value : Int)
    (multiHit : Option Int) (m : Machine) : Machine :=
  let times : Int :=
    match multiHit with
    | some v => if v = 0 then 1 else v
    | none => 1
  (List.range times.toNat).foldl
    (fun m _ =>
      match action with
      | "attack" =>
        resolveEffect { etype := "damage", value := value } enemyId
          (some m.playerId) enemyActionContext m
      | "defend" =>
        match getBlock m.world enemyId with
        | some amt => { m with world := setBlock m.world enemyId (amt + value) }
        | none => m
      | "buff" =>
        match getStatus m.world enemyId with
        | some s =>
          { m with
              world :=
                setStatus m.world enemyId
                  (alSet s "strength" (sGetD s "strength" + value)) }
        | none => m
      | "debuff" =>
        match getStatus m.world m.playerId with
        | some s =>
          { m with
              world :=
                setStatus m.world m.playerId
                  (alSet s "weak" (sGetD s "weak" + value)) }
        | none => m
      | _ => m)
    m

/-- The loop of `executeEnemyTurns`: skip destroyed or dead or
component-less enemies, execute each living enemy's intent, advance
sequential pattern indexes, and bail out to defeat the moment the player's
health is gone; after the loop, transition to `enemy_turn_end`. -/
def executeEnemyTurnsLoop : List Nat → Machine → Machine
  | [], m => onEnemyTurnEnd { m with phase := .enemyTurnEnd }
  | enemyId :: rest, m =>
    if !m.world.hasEntity enemyId then executeEnemyTurnsLoop rest m
    else
      match getHealth m.world enemyId with
      | none => executeEnemyTurnsLoop rest m
      | some hm =>
        if hm.1 ≤ 0 then executeEnemyTurnsLoop rest m
        else
          match m.world.getComponent enemyId "intent",
              m.world.getComponent enemyId "enemyAI" with
          | some (.intent action value multiHit),
              some (.enemyAI pattern patternIndex aiType) =>
            let m := executeEnemyAction enemyId action value multiHit m
            let m :=
              if aiType = "sequential" then
                { m with
                    world :=
                      m.world.updateComponent enemyId
                        (.enemyAI pattern (patternIndex + 1) aiType) }
              else m
            match getHealth m.world m.playerId with
            | some ph =>
              if ph.1 ≤ 0 then onDefeat { m with phase := .defeat }
              else executeEnemyTurnsLoop rest m
            | none => executeEnemyTurnsLoop rest m
          | _, _ => executeEnemyTurnsLoop rest m

/-- `executeEnemyTurns` over the current enemy list. -/
def executeEnemyTurns (m : Machine) : Machine :=
  executeEnemyTurnsLoop m.enemyIds m

/-- The body of `onEnemyTurnStart`: zero every enemy's block and compute
intents. -/
def onEnemyTurnStartSteps (m : Machine) : Machine :=
  let m :=
    m.enemyIds.foldl
      (fun m enemyId =>
        match getBlock m.world enemyId with
        | some _ => { m with world := setBlock m.world enemyId 0 }
        | none => m)
      m
  calculateEnemyIntents m

/-- `transitionTo('enemy_turn_start')` and the chain into the enemy turn. -/
def onEnemyTurnStart (m : Machine) : Machine :=
  let m := onEnemyTurnStartSteps { m with phase := .enemyTurnStart }
  executeEnemyTurns { m with phase := .enemyTurn }

/-- The body of `onPlayerTurnEnd`: discard the hand, metallicize block,
decrement the player's turn-scoped statuses, emit the turn-end
notification. -/
def onPlayerTurnEndSteps (m : Machine) : Machine :=
  let m := { m with store := m.store.discardHand }
  let m :=
    match getStatus m.world m.playerId with
    | some se =>
      let w :=
        if sTruthy se "metallicize" then
          match getBlock m.world m.playerId with
          | some amt =>
            setBlock m.world m.playerId (amt + sGetD se "metallicize")
          | none => m.world
        else m.world
      { m with world := setStatus w m.playerId (decrementTurnEffects se) }
    | none => m
  m.emit (.turnEnd m.playerId m.turn)

/-- `transitionTo('player_turn_end')` and the chain through the enemy
phases. -/
def onPlayerTurnEnd (m : Machine) : Machine :=
  let m := onPlayerTurnEndSteps { m with phase := .playerTurnEnd }
  onEnemyTurnStart { m with phase := .enemyTurnStart }

/-- `endTurn`: only accepted during the player turn. -/
def endTurn (m : Machine) : Machine :=
  if m.phase = .playerTurn then onPlayerTurnEnd m else m

/-- `selectCard`. -/
def selectCard (m : Machine) (index : Nat) : Machine :=
  if m.phase = .playerTurn then
    { m with selectedCardIndex := some index, selectedTargetId := none }
  else m

/-- `playSelectedCard`: guarded by phase, selection, card lookup, energy and
target; on success pays energy, resolves the card, moves it to discard,
clears the selection and runs the death check. -/
def playSelectedCard (m : Machine) : Machine :=
  if m.phase ≠ CombatPhase.playerTurn then m
  else
    match m.selectedCardIndex with
    | none => m
    | some idx =>
      match m.store.hand.get? idx with
      | none => m
      | some cardId =>
        match getCard cardId with
        | none => m
        | some card =>
          match getEnergy m.world m.playerId with
          | none => m
          | some em =>
            if em.1 < card.cost then m
            else if card.target == "enemy" && m.selectedTargetId == none then m
            else
              let m :=
                { m with
                    world := setEnergy m.world m.playerId (em.1 - card.cost)
                      em.2 }
              let m :=
                resolveCard cardId m.playerId m.selectedTargetId false m
              let m := { m with store := m.store.playCard idx }
              let m :=
                { m with selectedCardIndex := none, selectedTargetId := none }
              checkForDeaths m

/-- `selectTarget`: records the target and immediately plays. -/
def selectTarget (m : Machine) (targetId : Nat) : Machine :=
  if m.phase = .playerTurn then
    match m.selectedCardIndex with
    | none => m
    | some _ => playSelectedCard { m with selectedTargetId := some targetId }
  else m

/-- `isEnded`. -/
def isEnded (m : Machine) : Bool :=
  m.phase = .victory || m.phase = .defeat

/-! ## Concrete states used by counterexamples and witnesses -/

/-- A small combat world: entity 0 is the player (tag, health 50/80, block,
energy 3/3, empty statuses), entity 1 an enemy whose health, tags and
statuses the parameters choose. -/
def mkTestWorld (enemyHealth : Int) (enemyElite : Bool)
    (playerHealth : Int) (playerStatus enemyStatus : StatusMap) : World :=
  let r := World.empty.createEntity
  let w := r.2.addTag r.1 "player"
  let w := addComp w r.1 (.health playerHealth 80)
  let w := addComp w r.1 (.block 0)
  let w := addComp w r.1 (.energy 3 3)
  let w := addComp w r.1 (.statusEffects playerStatus)
  let r2 := w.createEntity
  let w := r2.2.addTag r2.1 "enemy"
  let w := if enemyElite then w.addTag r2.1 "elite" else w
  let w := addComp w r2.1 (.health enemyHealth 82)
  let w := addComp w r2.1 (.block 0)
  let w := addComp w r2.1 (.statusEffects enemyStatus)
  w

/-- A machine in the player turn over a given world. -/
def mkTestMachine (w : World) : Machine :=
  { phase := .playerTurn, turn := 1, playerId := 0, enemyIds := [1],
    selectedCardIndex := none, selectedTargetId := none,
    combatRewards := none, world := w, rng := ⟨123456789, 362436069⟩,
    store := ⟨[], [], []⟩, events := [], amb := [] }

/-- Count of combat-end notifications in an event log. -/
def countCombatEnd (evs : List Event) : Nat :=
  (evs.filter (fun e => match e with | .combatEnd .. => true | _ => false)).length

/-! ## Claim C1 -/

/-- C1: the claim asserts that a combat seeded with the same string and the
same player choices reproduces the enemy starting-health rolls.  It is false
on the code: `createEnemyEntity` rolls starting health from the ambient
`Math.random()` oracle (`EnemyDatabase.ts` line 338), which the seed does not
determine — the embedded `createEnemyEntity` takes no RNG stream at all, and
two runs that differ only in the ambient oracle produce different starting
health for the same enemy id. -/
theorem createEnemyEntity_health_ignores_seed :
    getHealth (createEnemyEntity World.empty "jaw_worm" 0 [0]).2.1 0 =
        some (40, 40) ∧
    getHealth
        (createEnemyEntity World.empty "jaw_worm" 0 [9007199254740991]).2.1 0
        = some (44, 44) := by
  decide

/-! ## Claim C2 -/

/-- The machine with one dead enemy, about to have its deaths checked. -/
def deadEnemyMachine : Machine :=
  mkTestMachine (mkTestWorld 0 false 50 [] [])

/-- C2: the claim asserts the death check is idempotent.  It is false on the
code once victory is reached: the first `checkForDeaths` destroys the dead
enemy and transitions to victory, and a second call — `enemyIds` now empty —
transitions to victory *again*, regenerating the rewards payload (advancing
the combat RNG) and emitting a second combat-end event. -/
theorem checkForDeaths_not_idempotent_after_victory :
    countCombatEnd (checkForDeaths (checkForDeaths deadEnemyMachine)).events
        = 2 ∧
    (checkForDeaths (checkForDeaths deadEnemyMachine)).rng ≠
      (checkForDeaths deadEnemyMachine).rng := by
  decide

/-! ## Claim C3 -/

/-- The machine with one dead *elite* enemy (tagged `elite`). -/
def deadEliteMachine : Machine :=
  mkTestMachine (mkTestWorld 0 true 50 [] [])

/-- C3: the claim asserts elite encounters grant the +25 gold and a relic at
victory.  It is false on the code: `checkForDeaths` empties `enemyIds` (and
`destroyEntity` drops the tags) before transitioning, so `onVictory`'s
`isElite` check over `state.enemyIds` is vacuously false — here the
encounter visibly included an elite, yet the rewards carry no relic and
plain `randInt(10,20)` gold. -/
theorem onVictory_elite_rewards_never_granted :
    deadEliteMachine.enemyIds.any
        (fun id => deadEliteMachine.world.hasTag id "elite") = true ∧
    (checkForDeaths deadEliteMachine).combatRewards.map CombatRewards.relicId
        = some none ∧
    ((checkForDeaths deadEliteMachine).combatRewards.map
        CombatRewards.gold).getD 99 ≤ 19 := by
  decide

/-! ## Claim C5 counterexample -/

/-- A machine whose player holds one artifact stack. -/
def artifactPlayerMachine : Machine :=
  mkTestMachine (mkTestWorld 30 false 50 [("artifact", 1)] [])

/-- C5 counterexample: the claim covers debuffs from an enemy's executed
debuff intent, but `executeEnemyAction`'s `debuff` case increments the
player's weak stacks directly, never consulting artifact: with artifact 1,
a debuff intent of 2 leaves artifact at 1 (nothing consumed) and applies
weak 2 (the debuff lands). -/
theorem enemy_debuff_intent_bypasses_artifact :
    getStatus (executeEnemyAction 1 "debuff" 2 none
        artifactPlayerMachine).world 0 =
      some [("artifact", 1), ("weak", 2)] := by
  decide

/-! ## Claim C6 counterexample -/

/-- A machine whose enemy holds one artifact stack. -/
def artifactEnemyMachine : Machine :=
  mkTestMachine (mkTestWorld 30 false 50 [] [("artifact", 1)])

/-- A machine whose player is at zero health with brutality active and a
living enemy. -/
def brutalityMachine : Machine :=
  mkTestMachine (mkTestWorld 5 false 0 [("brutality", 1)] [])

/-- C6 counterexample: the status-stack invariant fails — consuming the last
artifact stack stores `artifact ↦ 0` instead of removing the entry — and the
health lower bound fails after a phase step: brutality's turn-start HP loss
is not clamped, leaving the player at −1 health. -/
theorem invariant_violations_artifact_and_brutality :
    getStatus (resolveApplyStatus (statusE 1 "weak") 0 (some 1) "enemy"
        artifactEnemyMachine).world 1 = some [("artifact", 0)] ∧
    getHealth (processPlayerTurnStartEffects brutalityMachine).world 0 =
      some (-1, 80) := by
  decide

/-! ## Claim C7 -/

/-- C7: an attempt to play the selected card with current energy strictly
below the card's cost is rejected before any mutation: `playSelectedCard`
returns the machine unchanged — no component of any entity is touched, the
hand is untouched and no card-played notification is appended to the event
log. -/
theorem playSelectedCard_insufficient_energy (m : Machine) (idx : Nat)
    (cardId : String) (card : CardDefinition) (cur mx : Int)
    (hsel : m.selectedCardIndex = some idx)
    (hhand : m.store.hand.get? idx = some cardId)
    (hcard : getCard cardId = some card)
    (hen : getEnergy m.world m.playerId = some (cur, mx))
    (hlt : cur < card.cost) :
    playSelectedCard m = m := by
  unfold playSelectedCard
  by_cases hp : m.phase = CombatPhase.playerTurn
  · simp only [hp, hsel, hhand, hcard, hen]
    simp [hlt]
  · simp [hp]

/-- The bash card definition, as stored in the database. -/
def bashDef : CardDefinition :=
  { id := "bash", ctype := "attack", rarity := "starter", cost := 2,
    target := "enemy", effects := [dmgE 8, statusE 2 "vulnerable"],
    effectsUpgraded := some [dmgE 10, statusE 3 "vulnerable"] }

/-- A player-turn machine with bash selected but only 1 energy. -/
def lowEnergyMachine : Machine :=
  let w := setEnergy (mkTestWorld 30 false 50 [] []) 0 1 3
  { mkTestMachine w with
      selectedCardIndex := some 0
      selectedTargetId := some 1
      store := ⟨["bash"], [], []⟩ }

/-- C7 witness: playing the 2-cost bash with 1 energy changes nothing. -/
theorem playSelectedCard_insufficient_energy_witness :
    playSelectedCard lowEnergyMachine = lowEnergyMachine :=
  playSelectedCard_insufficient_energy lowEnergyMachine 0 "bash" bashDef 1 3
    rfl rfl (by decide) (by decide) (by decide)

/-! ## Claim C10 -/

theorem getStatus_updateComponent_ne (w : World) (id id2 : Nat)
    (c : Component) (h : c.ctype ≠ "statusEffects") :
    getStatus (w.updateComponent id2 c) id = getStatus w id := by
  unfold getStatus World.getComponent World.updateComponent
  simp [alGet_alSet_ne _ _ _ _ h]

theorem getStatus_setBlock (w : World) (a : Int) (id i2 : Nat) :
    getStatus (setBlock w i2 a) id = getStatus w id := by
  unfold setBlock
  exact getStatus_updateComponent_ne w id i2 (.block a)
    (by simp [Component.ctype])

theorem getStatus_setHealth (w : World) (c mx : Int) (id i2 : Nat) :
    getStatus (setHealth w i2 c mx) id = getStatus w id := by
  unfold setHealth
  exact getStatus_updateComponent_ne w id i2 (.health c mx)
    (by simp [Component.ctype])

/-- `applyHit` mutates only block and health components, so every status
map is unchanged by it. -/
theorem getStatus_applyHit (s t id : Nat) (d : Int) (ia : Bool)
    (m : Machine) :
    getStatus (applyHit s t d ia m).world id = getStatus m.world id := by
  unfold applyHit healthStage blockStage Machine.emit
  dsimp only
  repeat' split
  all_goals simp_all [getStatus_setBlock, getStatus_setHealth]

/-- A non-attack damage application never reflects: for `isAttack = false`
`applyDamage` is exactly one `applyHit`. -/
theorem applyDamage_false_eq_applyHit (s t : Nat) (d : Int) (m : Machine) :
    applyDamage s t d false m = applyHit s t d false m := by
  rw [applyDamage]
  simp

/-- C10: damage application terminates with recursion depth at most two.
For an attack hit on a target holding `thorns = tv > 0`, `applyDamage` is
exactly the primary hit followed by one reflected hit of `tv` back at the
attacker; the reflected hit is flagged non-attack, so (by
`applyHit`'s definition) it skips the strength, weak and vulnerable math,
and (second conjunct, all inputs) a non-attack `applyDamage` never recurses
into a further thorns reflection. -/
theorem applyDamage_thorns_depth_two (s t : Nat) (d tv : Int) (m : Machine)
    (stm : StatusMap) (ht : getStatus m.world t = some stm)
    (hth : alGet stm "thorns" = some tv) (hpos : 0 < tv) :
    applyDamage s t d true m =
        applyHit t s tv false (applyHit s t d true m) ∧
    (∀ (s' t' : Nat) (d' : Int) (m' : Machine),
        applyDamage s' t' d' false m' = applyHit s' t' d' false m') := by
  refine ⟨?_, fun s' t' d' m' => applyDamage_false_eq_applyHit s' t' d' m'⟩
  have hst : getStatus (applyHit s t d true m).world t = some stm := by
    rw [getStatus_applyHit, ht]
  rw [applyDamage]
  have htr : optTruthy (getStatus (applyHit s t d true m).world t) "thorns"
      = true := by
    rw [hst]
    simp [optTruthy, sTruthy, hth]
    omega
  rw [dif_pos ⟨rfl, htr⟩]
  have hval : optGetD (getStatus (applyHit s t d true m).world t) "thorns"
      = tv := by
    rw [hst]
    simp [optGetD, sGetD, hth]
  rw [hval, applyDamage_false_eq_applyHit]

theorem getStatus_setStatus_self (w : World) (i : Nat) (mm : StatusMap) :
    getStatus (setStatus w i mm) i = some mm := by
  unfold getStatus setStatus World.updateComponent World.getComponent
  simp [Component.ctype, alGet_alSet_self]

theorem getStatus_setStatus_ne (w : World) (i j : Nat) (mm : StatusMap)
    (h : i ≠ j) :
    getStatus (setStatus w i mm) j = getStatus w j := by
  unfold getStatus setStatus World.updateComponent World.getComponent
  simp only [Component.ctype, alGet_alSet_self, Option.bind]
  cases halG : alGet w.components "statusEffects" with
  | none => simp [alGet, h]
  | some inner => simp [alGet_alSet_ne _ _ _ _ h]

/-! ## Claim C5 (amended) -/

/-- C5 amended: artifact consumption holds on the resolver path but not for
enemy debuff intents.  First conjunct: a debuff applied through
`resolveApplyStatus` to a single target holding `artifact = a > 0` consumes
exactly one artifact stack (`a - 1` is stored), leaves the debuff's stacks
unchanged, and emits only the status-triggered notification.  Second
conjunct: an enemy's executed `debuff` intent bypasses the artifact check
entirely — it increments the player's weak stacks directly, whatever the
player's artifact count. -/
theorem apply_status_artifact_semantics :
    (∀ (m : Machine) (s t : Nat) (eff : CardEffect) (sid : String)
        (sm : StatusMap) (a : Int),
        eff.statusId = some sid →
        sid ∈ ["vulnerable", "weak", "frail", "poison"] →
        eff.target = none →
        getStatus m.world t = some sm →
        alGet sm "artifact" = some a →
        0 < a →
        getStatus (resolveApplyStatus eff s (some t) "enemy" m).world t =
            some (alSet sm "artifact" (a - 1)) ∧
        alGet (alSet sm "artifact" (a - 1)) sid = alGet sm sid ∧
        alGet (alSet sm "artifact" (a - 1)) "artifact" = some (a - 1) ∧
        (resolveApplyStatus eff s (some t) "enemy" m).events =
          m.events ++ [.statusTriggered t "artifact"]) ∧
    (∀ (m : Machine) (e : Nat) (v : Int) (pm : StatusMap),
        getStatus m.world m.playerId = some pm →
        getStatus (executeEnemyAction e "debuff" v none m).world m.playerId =
          some (alSet pm "weak" (sGetD pm "weak" + v))) := by
  constructor
  · intro m s t eff sid sm a hsid hdeb htar hst hart hpos
    have ha : sTruthy sm "artifact" = true := by
      simp [sTruthy, hart]
      omega
    have hag : sGetD sm "artifact" = a := by simp [sGetD, hart]
    simp only [List.mem_cons, List.mem_singleton, List.not_mem_nil, or_false]
      at hdeb
    rcases hdeb with rfl | rfl | rfl | rfl <;>
      (refine ⟨?_, ?_, ?_, ?_⟩ <;>
        simp [resolveApplyStatus, hsid, htar, hst, ha, hag, hpos,
          Machine.emit, getStatus_setStatus_self, alGet_alSet_self,
          alGet_alSet_ne])
  · intro m e v pm hpm
    simp [executeEnemyAction, List.range_succ, hpm,
      getStatus_setStatus_self]

/-- A machine whose player holds two artifact stacks. -/
def artifactTwoMachine : Machine :=
  mkTestMachine (mkTestWorld 30 false 50 [("artifact", 2)] [("artifact", 2)])

/-- C5 witness: both conjuncts at concrete inputs — a card-path weak
application onto artifact 2 consumes one stack, and an enemy debuff intent
of 3 lands as weak 3 regardless of the player's artifact. -/
theorem apply_status_artifact_semantics_witness :
    (getStatus (resolveApplyStatus (statusE 1 "weak") 0 (some 1) "enemy"
          artifactTwoMachine).world 1 =
        some (alSet (([("artifact", 2)] : StatusMap)) "artifact" 1) ∧
      alGet (alSet (([("artifact", 2)] : StatusMap)) "artifact" 1) "weak" =
        alGet (([("artifact", 2)] : StatusMap)) "weak" ∧
      alGet (alSet (([("artifact", 2)] : StatusMap)) "artifact" 1) "artifact"
        = some 1 ∧
      (resolveApplyStatus (statusE 1 "weak") 0 (some 1) "enemy"
          artifactTwoMachine).events =
        artifactTwoMachine.events ++ [.statusTriggered 1 "artifact"]) ∧
    getStatus (executeEnemyAction 1 "debuff" 3 none
        artifactTwoMachine).world 0 =
      some (alSet (([("artifact", 2)] : StatusMap)) "weak"
        (sGetD (([("artifact", 2)] : StatusMap)) "weak" + 3)) := by
  constructor
  · exact apply_status_artifact_semantics.1 artifactTwoMachine 0 1
      (statusE 1 "weak") "weak" [("artifact", 2)] 2 rfl (by decide) rfl
      (by decide) (by decide) (by decide)
  · exact apply_status_artifact_semantics.2 artifactTwoMachine 1 3
      [("artifact", 2)] (by decide)

/-- A machine whose enemy holds three thorns stacks. -/
def thornsMachine : Machine :=
  mkTestMachine (mkTestWorld 30 false 50 [] [("thorns", 3)])

/-- C10 witness: the depth-two unfolding at a concrete thorny target. -/
theorem applyDamage_thorns_depth_two_witness :
    applyDamage 0 1 6 true thornsMachine =
        applyHit 1 0 3 false (applyHit 0 1 6 true thornsMachine) ∧
    (∀ (s' t' : Nat) (d' : Int) (m' : Machine),
        applyDamage s' t' d' false m' = applyHit s' t' d' false m') :=
  applyDamage_thorns_depth_two 0 1 6 3 thornsMachine [("thorns", 3)]
    (by decide) (by decide) (by decide)

/-! ## Claim C8 -/

theorem alGet_decStep_ne (eff : StatusMap) (k k' : String) (h : k ≠ k') :
    alGet (decStep eff k) k' = alGet eff k' := by
  unfold decStep
  cases h1 : alGet eff k with
  | none => rfl
  | some v =>
    by_cases h2 : v > 0
    · simp only [h2, if_true]
      by_cases h3 : v - 1 ≤ 0 <;>
        simp [h3, alGet_alErase_ne _ _ _ h, alGet_alSet_ne _ _ _ _ h]
    · simp [h2]

theorem alGet_decStep_pos (eff : StatusMap) (k : String) (v : Int)
    (h1 : alGet eff k = some v) (h2 : v > 0) :
    alGet (decStep eff k) k = if v - 1 ≤ 0 then none else some (v - 1) := by
  unfold decStep
  rw [h1]
  simp only [h2, if_true]
  by_cases h3 : v - 1 ≤ 0 <;>
    simp [h3, alGet_alErase_self, alGet_alSet_self]

theorem alGet_decStep_none (eff : StatusMap) (k : String)
    (h1 : alGet eff k = none) :
    alGet (decStep eff k) k = none := by
  unfold decStep
  rw [h1]
  exact h1

theorem alGet_decStep_congr (eff eff' : StatusMap) (k : String)
    (h : alGet eff k = alGet eff' k) :
    alGet (decStep eff k) k = alGet (decStep eff' k) k := by
  unfold decStep
  rw [h]
  cases h2 : alGet eff' k with
  | none => exact h
  | some v =>
    by_cases hv : v > 0
    · simp only [hv, if_true]
      by_cases h3 : v - 1 ≤ 0 <;>
        simp [h3, alGet_alSet_self, alGet_alErase_self]
    · simp only [hv, if_false]
      exact h

theorem alGet_remStep_ne (eff : StatusMap) (k k' : String) (h : k ≠ k')
    (h2 : k' ≠ "strength") :
    alGet (remStep eff k) k' = alGet eff k' := by
  unfold remStep
  by_cases hh : alHas eff k
  · simp only [hh, if_true]
    by_cases hs : k = "strength_down_eot"
    · subst hs
      simp [alGet_alErase_ne _ _ _ h, alGet_alSet_ne _ _ _ _ (Ne.symm h2)]
    · simp [hs, alGet_alErase_ne _ _ _ h]
  · simp [hh]

/-- The lookup of a turn-scoped debuff after `decrementTurnEffects` is the
lookup after its own `decStep`: the other seven loop keys differ from it
and from each other, and a `decStep` at one key neither reads nor writes
any other. -/
theorem alGet_decrementTurnEffects (m : StatusMap) (sid : String)
    (hs : sid = "vulnerable" ∨ sid = "weak" ∨ sid = "frail") :
    alGet (decrementTurnEffects m) sid = alGet (decStep m sid) sid := by
  rcases hs with rfl | rfl | rfl
  · unfold decrementTurnEffects
    simp only [List.foldl_cons, List.foldl_nil]
    rw [alGet_remStep_ne _ _ _ (by decide) (by decide),
        alGet_remStep_ne _ _ _ (by decide) (by decide),
        alGet_remStep_ne _ _ _ (by decide) (by decide),
        alGet_decStep_ne _ _ _ (by decide),
        alGet_decStep_ne _ _ _ (by decide),
        alGet_decStep_ne _ _ _ (by decide),
        alGet_decStep_ne _ _ _ (by decide)]
  · unfold decrementTurnEffects
    simp only [List.foldl_cons, List.foldl_nil]
    rw [alGet_remStep_ne _ _ _ (by decide) (by decide),
        alGet_remStep_ne _ _ _ (by decide) (by decide),
        alGet_remStep_ne _ _ _ (by decide) (by decide),
        alGet_decStep_ne _ _ _ (by decide),
        alGet_decStep_ne _ _ _ (by decide),
        alGet_decStep_ne _ _ _ (by decide)]
    exact alGet_decStep_congr _ _ _ (alGet_decStep_ne _ _ _ (by decide))
  · unfold decrementTurnEffects
    simp only [List.foldl_cons, List.foldl_nil]
    rw [alGet_remStep_ne _ _ _ (by decide) (by decide),
        alGet_remStep_ne _ _ _ (by decide) (by decide),
        alGet_remStep_ne _ _ _ (by decide) (by decide),
        alGet_decStep_ne _ _ _ (by decide),
        alGet_decStep_ne _ _ _ (by decide)]
    refine alGet_decStep_congr _ _ _ ?_
    rw [alGet_decStep_ne _ _ _ (by decide),
        alGet_decStep_ne _ _ _ (by decide)]

theorem decrementTurnEffects_absent (m : StatusMap) (sid : String)
    (hs : sid = "vulnerable" ∨ sid = "weak" ∨ sid = "frail")
    (hv : alGet m sid = none) :
    alGet (decrementTurnEffects m) sid = none := by
  rw [alGet_decrementTurnEffects m sid hs, alGet_decStep_none _ _ hv]

/-- A machine-level fold step touches no other entity's statuses. -/
theorem foldl_enemyStep_notMem (l : List Nat) (x : Nat) :
    ∀ (mc : Machine), x ∉ l →
      getStatus (l.foldl enemyTurnEndStep mc).world x = getStatus mc.world x
    := by
  induction l with
  | nil => intro mc _; rfl
  | cons a rest ih =>
    intro mc hx
    have hxa : x ≠ a := fun hq => hx (hq ▸ List.mem_cons_self a rest)
    have hxr : x ∉ rest := fun hq => hx (List.mem_cons_of_mem a hq)
    rw [List.foldl_cons, ih _ hxr]
    unfold enemyTurnEndStep
    cases hse : getStatus mc.world a with
    | none => rfl
    | some se => simp [getStatus_setStatus_ne _ _ _ _ (Ne.symm hxa)]

/-- Each enemy in a duplicate-free list is decremented exactly once by the
enemy-turn-end fold. -/
theorem foldl_enemyStep_mem (e : Nat) (pm : StatusMap) :
    ∀ (l : List Nat) (mc : Machine), l.Nodup → e ∈ l →
      getStatus mc.world e = some pm →
      getStatus (l.foldl enemyTurnEndStep mc).world e =
        some (decrementTurnEffects pm) := by
  intro l
  induction l with
  | nil => intro mc _ he _; exact absurd he (List.not_mem_nil e)
  | cons a rest ih =>
    intro mc hnd he hpm
    rw [List.foldl_cons]
    rcases List.mem_cons.mp he with rfl | hrest
    · have hnr : e ∉ rest := (List.nodup_cons.mp hnd).1
      rw [foldl_enemyStep_notMem rest e _ hnr]
      unfold enemyTurnEndStep
      rw [hpm]
      simp [getStatus_setStatus_self]
    · have hne : a ≠ e := by
        rintro rfl
        exact (List.nodup_cons.mp hnd).1 hrest
      have hpm' : getStatus (enemyTurnEndStep mc a).world e = some pm := by
        unfold enemyTurnEndStep
        cases hse : getStatus mc.world a with
        | none => exact hpm
        | some se => simp [getStatus_setStatus_ne _ _ _ _ hne, hpm]
      exact ih (enemyTurnEndStep mc a) (List.nodup_cons.mp hnd).2 hrest hpm'

/-- C8: turn-scoped debuffs decrement by exactly one at their owner's own
turn-end step and are removed on reaching zero.  Conjuncts: (1) a
vulnerable/weak/frail entry of count `n+1` becomes `n`, the entry deleted
when `n = 0`; (2) hence a stack of 1 never survives two consecutive
turn-end decrements; (3) the player-turn-end body applies the decrement to
the player's map and leaves every other entity's statuses unchanged;
(4,5) the enemy-turn-end body decrements each listed enemy's map exactly
once and leaves any entity outside the list unchanged. -/
theorem turn_scoped_debuffs_decrement :
    (∀ (m : StatusMap) (sid : String) (n : Nat),
        (sid = "vulnerable" ∨ sid = "weak" ∨ sid = "frail") →
        alGet m sid = some ((n : Int) + 1) →
        alGet (decrementTurnEffects m) sid =
          if n = 0 then none else some (n : Int)) ∧
    (∀ (m : StatusMap) (sid : String),
        (sid = "vulnerable" ∨ sid = "weak" ∨ sid = "frail") →
        alGet m sid = some 1 →
        alGet (decrementTurnEffects (decrementTurnEffects m)) sid = none) ∧
    (∀ (mc : Machine) (pm : StatusMap),
        getStatus mc.world mc.playerId = some pm →
        getStatus (onPlayerTurnEndSteps mc).world mc.playerId =
            some (decrementTurnEffects pm) ∧
        ∀ e, e ≠ mc.playerId →
          getStatus (onPlayerTurnEndSteps mc).world e =
            getStatus mc.world e) ∧
    (∀ (mc : Machine) (e : Nat) (pm : StatusMap),
        mc.enemyIds.Nodup → e ∈ mc.enemyIds →
        getStatus mc.world e = some pm →
        getStatus (onEnemyTurnEndSteps mc).world e =
          some (decrementTurnEffects pm)) ∧
    (∀ (mc : Machine) (x : Nat), x ∉ mc.enemyIds →
        getStatus (onEnemyTurnEndSteps mc).world x =
          getStatus mc.world x) := by
  have hmain : ∀ (m : StatusMap) (sid : String) (n : Nat),
      (sid = "vulnerable" ∨ sid = "weak" ∨ sid = "frail") →
      alGet m sid = some ((n : Int) + 1) →
      alGet (decrementTurnEffects m) sid =
        if n = 0 then none else some (n : Int) := by
    intro m sid n hs hv
    have hpos : ((n : Int) + 1) > 0 := by omega
    rw [alGet_decrementTurnEffects m sid hs,
        alGet_decStep_pos _ _ _ hv hpos]
    have he1 : (n : Int) + 1 - 1 = (n : Int) := by ring
    rw [he1]
    by_cases hn : n = 0
    · simp [hn]
    · have hgt : ¬ ((n : Int) ≤ 0) := by omega
      simp [hn, hgt]
  refine ⟨hmain, ?_, ?_, ?_, ?_⟩
  · intro m sid hs hv
    have h1 : alGet (decrementTurnEffects m) sid = none := by
      have := hmain m sid 0 hs (by simpa using hv)
      simpa using this
    exact decrementTurnEffects_absent _ sid hs h1
  · intro mc pm hpm
    constructor
    · unfold onPlayerTurnEndSteps Machine.emit
      dsimp only
      rw [hpm]
      dsimp only
      repeat' split
      all_goals
        simp [getStatus_setStatus_self, getStatus_setBlock]
    · intro e he
      unfold onPlayerTurnEndSteps Machine.emit
      dsimp only
      rw [hpm]
      dsimp only
      repeat' split
      all_goals
        simp [getStatus_setStatus_ne _ _ _ _ (Ne.symm he), getStatus_setBlock]
  · intro mc e pm hnd he hpm
    exact foldl_enemyStep_mem e pm mc.enemyIds mc hnd he hpm
  · intro mc x hx
    exact foldl_enemyStep_notMem mc.enemyIds x mc hx

/-- A machine whose player and enemy both hold turn-scoped debuffs. -/
def debuffMachine : Machine :=
  mkTestMachine (mkTestWorld 30 false 50 [("vulnerable", 2)] [("weak", 1)])

/-- C8 witness: the decrement behavior at concrete stacks — vulnerable 2
becomes 1, weak 1 is removed, one stack dies within two decrements, and the
phase bodies route the decrement to the owner. -/
theorem turn_scoped_debuffs_decrement_witness :
    alGet (decrementTurnEffects [("vulnerable", 2)]) "vulnerable" =
        (if (1 : Nat) = 0 then none else some ((1 : Nat) : Int)) ∧
    alGet (decrementTurnEffects (decrementTurnEffects [("weak", 1)])) "weak"
        = none ∧
    getStatus (onPlayerTurnEndSteps debuffMachine).world
        debuffMachine.playerId =
      some (decrementTurnEffects [("vulnerable", 2)]) ∧
    getStatus (onEnemyTurnEndSteps debuffMachine).world 1 =
      some (decrementTurnEffects [("weak", 1)]) ∧
    getStatus (onEnemyTurnEndSteps debuffMachine).world 0 =
      getStatus debuffMachine.world 0 := by
  refine ⟨?_, ?_, ?_, ?_, ?_⟩
  · exact turn_scoped_debuffs_decrement.1 [("vulnerable", 2)] "vulnerable" 1
      (by decide) (by decide)
  · exact turn_scoped_debuffs_decrement.2.1 [("weak", 1)] "weak"
      (by decide) (by decide)
  · exact (turn_scoped_debuffs_decrement.2.2.1 debuffMachine
      [("vulnerable", 2)] (by decide)).1
  · exact turn_scoped_debuffs_decrement.2.2.2.1 debuffMachine 1
      [("weak", 1)] (by decide) (by decide) (by decide)
  · exact turn_scoped_debuffs_decrement.2.2.2.2 debuffMachine 0 (by decide)

/-! ## Claim C4 -/

theorem getBlock_setBlock_self (w : World) (i : Nat) (a : Int) :
    getBlock (setBlock w i a) i = some a := by
  unfold getBlock setBlock World.updateComponent World.getComponent
    Component.ctype
  simp [alGet_alSet_self]

theorem getHealth_setHealth_self (w : World) (i : Nat) (c mx : Int) :
    getHealth (setHealth w i c mx) i = some (c, mx) := by
  unfold getHealth setHealth World.updateComponent World.getComponent
    Component.ctype
  simp [alGet_alSet_self]

theorem getBlock_setHealth (w : World) (i j : Nat) (c mx : Int) :
    getBlock (setHealth w i c mx) j = getBlock w j := by
  unfold getBlock setHealth World.updateComponent World.getComponent
  rw [alGet_alSet_ne _ _ _ _ (by simp [Component.ctype])]

theorem getHealth_setBlock (w : World) (i j : Nat) (a : Int) :
    getHealth (setBlock w i a) j = getHealth w j := by
  unfold getHealth setBlock World.updateComponent World.getComponent
  rw [alGet_alSet_ne _ _ _ _ (by simp [Component.ctype])]

/-- The modifier pipeline of claim C4, written from the specification's
wording: add the attacker's strength; under weak multiply by 0.75 and
floor; under vulnerable multiply by 1.5 and floor; under intangible replace
by 1; block absorbs up to its amount; the remainder hits health (clamped at
zero, the point-of-mutation clamp of §7).  Status counts are naturals —
"holds X" is a nonzero count — and the result is the final
`(block, health)` of the target. -/
def specDamage (strength weakStacks vulnStacks intangibleStacks d : Nat) :
    Int :=
  let d1 : Int := (d : Int) + (strength : Int)
  let d2 := if weakStacks ≠ 0 then Int.fdiv (3 * d1) 4 else d1
  let d3 := if vulnStacks ≠ 0 then Int.fdiv (3 * d2) 2 else d2
  if intangibleStacks ≠ 0 then 1 else d3

/-- The block and health tail of the claim's pipeline: block absorbs up to
its amount, the remainder hits health, clamped at zero. -/
def specAttackPipeline (strength weakStacks vulnStacks intangibleStacks
    blockAmt hp : Nat) (d : Nat) : Int × Int :=
  let d4 := specDamage strength weakStacks vulnStacks intangibleStacks d
  let blocked := min (blockAmt : Int) d4
  ((blockAmt : Int) - blocked, max 0 ((hp : Int) - (d4 - blocked)))

/-- The two-entity world of the C4 statement: entity 0 the attacker with the
given strength and weak stacks, entity 1 the target with the given
vulnerable/intangible stacks, block and health. -/
def c4World (strength weakStacks vulnStacks intangibleStacks blockAmt hp
    mx : Nat) : World :=
  let r := World.empty.createEntity
  let w := addComp r.2 r.1
    (.statusEffects [("strength", (strength : Int)),
                     ("weak", (weakStacks : Int))])
  let r2 := w.createEntity
  let w := addComp r2.2 r2.1 (.health (hp : Int) (mx : Int))
  let w := addComp w r2.1 (.block (blockAmt : Int))
  let w := addComp w r2.1
    (.statusEffects [("vulnerable", (vulnStacks : Int)),
                     ("intangible", (intangibleStacks : Int))])
  w

/-- A machine over the C4 world. -/
def c4Machine (strength weakStacks vulnStacks intangibleStacks blockAmt hp
    mx : Nat) : Machine :=
  mkTestMachine (c4World strength weakStacks vulnStacks intangibleStacks
    blockAmt hp mx)

/-- An attack application without thorns on the target is the single hit. -/
theorem applyDamage_no_thorns (s t : Nat) (d : Int) (m : Machine)
    (h : optTruthy (getStatus m.world t) "thorns" = false) :
    applyDamage s t d true m = applyHit s t d true m := by
  rw [applyDamage]
  rw [dif_neg]
  rw [getStatus_applyHit, h]
  simp

/-- On the C4 maps, the staged damage computation equals the claim
pipeline's damage value. -/
theorem modifiedDamage_eval (strength weakStacks vulnStacks intangibleStacks
    d : Nat) :
    modifiedDamage
        (some [("strength", (strength : Int)), ("weak", (weakStacks : Int))])
        (some [("vulnerable", (vulnStacks : Int)),
               ("intangible", (intangibleStacks : Int))])
        (d : Int) true =
      specDamage strength weakStacks vulnStacks intangibleStacks d := by
  unfold modifiedDamage specDamage optTruthy sTruthy optGetD sGetD
  by_cases h1 : weakStacks = 0 <;> by_cases h2 : vulnStacks = 0 <;>
    by_cases h3 : intangibleStacks = 0 <;>
    simp [h1, h2, h3, alGet, Int.natCast_eq_zero]

/-- The claim pipeline's damage value is nonnegative for natural inputs. -/
theorem specDamage_nonneg (strength weakStacks vulnStacks intangibleStacks
    d : Nat) :
    0 ≤ specDamage strength weakStacks vulnStacks intangibleStacks d := by
  unfold specDamage
  have h1 : (0 : Int) ≤ (d : Int) + (strength : Int) := by positivity
  have h2 : (0 : Int) ≤ Int.fdiv (3 * ((d : Int) + (strength : Int))) 4 :=
    Int.fdiv_nonneg (by linarith) (by norm_num)
  have h3 : (0 : Int) ≤ Int.fdiv (3 * ((d : Int) + (strength : Int))) 2 :=
    Int.fdiv_nonneg (by linarith) (by norm_num)
  have h4 : (0 : Int) ≤
      Int.fdiv (3 * Int.fdiv (3 * ((d : Int) + (strength : Int))) 4) 2 :=
    Int.fdiv_nonneg (by linarith) (by norm_num)
  by_cases hw : weakStacks = 0 <;> by_cases hv : vulnStacks = 0 <;>
    by_cases hi : intangibleStacks = 0 <;>
    simp [hw, hv, hi] <;> omega

/-- Evaluation of the block stage at a known nonnegative block and
nonnegative damage. -/
theorem blockStage_eval (w : World) (t : Nat) (b X : Int)
    (hb : getBlock w t = some b) (hbnn : 0 ≤ b) (hX : 0 ≤ X) :
    blockStage w t X =
      ((if 0 < b then setBlock w t (b - min b X) else w), min b X,
        X - min b X) := by
  unfold blockStage
  rw [hb]
  by_cases hbp : b > 0
  · simp [hbp]
  · have hb0 : b = 0 := le_antisymm (not_lt.mp hbp) hbnn
    subst hb0
    simp [min_eq_left hX]

/-- The health stage leaves the block component alone. -/
theorem getBlock_healthStage (w : World) (t j : Nat) (rem hp mx : Int)
    (hh : getHealth w t = some (hp, mx)) (hrem : 0 ≤ rem) :
    getBlock (healthStage w t rem) j = getBlock w j := by
  unfold healthStage
  by_cases hp0 : rem > 0
  · rw [if_pos hp0, hh, getBlock_setHealth]
  · rw [if_neg hp0]

/-- Evaluation of the health stage: the final health is the clamped
subtraction of the (nonnegative) remaining damage. -/
theorem getHealth_healthStage (w : World) (t : Nat) (rem hp mx : Int)
    (hh : getHealth w t = some (hp, mx)) (hrem : 0 ≤ rem)
    (hhpnn : 0 ≤ hp) :
    getHealth (healthStage w t rem) t = some (max 0 (hp - rem), mx) := by
  unfold healthStage
  by_cases hp0 : rem > 0
  · rw [if_pos hp0, hh]
    exact getHealth_setHealth_self w t _ mx
  · rw [if_neg hp0, hh]
    have h0 : rem = 0 := le_antisymm (not_lt.mp hp0) hrem
    subst h0
    have h1 : max 0 (hp - 0) = hp := by omega
    rw [h1]

/-- C4, part A: on the C4 world, the attack-type damage application computes
the target's final block and health exactly per the claim's pipeline. -/
theorem applyDamage_matches_specAttackPipeline
    (strength weakStacks vulnStacks intangibleStacks blockAmt hp mx d :
      Nat) :
    getBlock (applyDamage 0 1 (d : Int) true
        (c4Machine strength weakStacks vulnStacks intangibleStacks blockAmt
          hp mx)).world 1 =
      some (specAttackPipeline strength weakStacks vulnStacks
        intangibleStacks blockAmt hp d).1 ∧
    getHealth (applyDamage 0 1 (d : Int) true
        (c4Machine strength weakStacks vulnStacks intangibleStacks blockAmt
          hp mx)).world 1 =
      some ((specAttackPipeline strength weakStacks vulnStacks
        intangibleStacks blockAmt hp d).2, (mx : Int)) := by
  rw [applyDamage_no_thorns 0 1 (d : Int)
    (c4Machine strength weakStacks vulnStacks intangibleStacks blockAmt hp
      mx) rfl]
  have hsrc : getStatus (c4Machine strength weakStacks vulnStacks
      intangibleStacks blockAmt hp mx).world 0 =
      some [("strength", (strength : Int)), ("weak", (weakStacks : Int))] :=
    rfl
  have htgt : getStatus (c4Machine strength weakStacks vulnStacks
      intangibleStacks blockAmt hp mx).world 1 =
      some [("vulnerable", (vulnStacks : Int)),
            ("intangible", (intangibleStacks : Int))] := rfl
  have hblk : getBlock (c4Machine strength weakStacks vulnStacks
      intangibleStacks blockAmt hp mx).world 1 = some (blockAmt : Int) :=
    rfl
  have hhp : getHealth (c4Machine strength weakStacks vulnStacks
      intangibleStacks blockAmt hp mx).world 1 =
      some ((hp : Int), (mx : Int)) := rfl
  unfold applyHit Machine.emit
  dsimp only
  rw [hsrc, htgt,
    modifiedDamage_eval strength weakStacks vulnStacks intangibleStacks d]
  unfold specAttackPipeline
  dsimp only
  have hXnn := specDamage_nonneg strength weakStacks vulnStacks
    intangibleStacks d
  set X := specDamage strength weakStacks vulnStacks intangibleStacks d
    with hXdef
  rw [blockStage_eval _ _ _ _ hblk (by positivity) hXnn]
  dsimp only
  have hrem : 0 ≤ X - min (blockAmt : Int) X := by omega
  by_cases hbp : (0 : Int) < (blockAmt : Int)
  · rw [if_pos hbp]
    have hh2 : getHealth
        (setBlock (c4Machine strength weakStacks vulnStacks intangibleStacks
          blockAmt hp mx).world 1 ((blockAmt : Int) - min (blockAmt : Int) X))
        1 = some ((hp : Int), (mx : Int)) := by
      rw [getHealth_setBlock, hhp]
    constructor
    · rw [getBlock_healthStage _ _ _ _ _ _ hh2 hrem, getBlock_setBlock_self]
    · rw [getHealth_healthStage _ _ _ _ _ hh2 hrem (by positivity)]
  · rw [if_neg hbp]
    constructor
    · rw [getBlock_healthStage _ _ _ _ _ _ hhp hrem, hblk]
      have hb0 : (blockAmt : Int) = 0 := by omega
      rw [hb0]
      congr 1
      omega
    · rw [getHealth_healthStage _ _ _ _ _ hhp hrem (by positivity)]

/-- The strike card definition, as stored in the database. -/
def strikeDef : CardDefinition :=
  { id := "strike", ctype := "attack", rarity := "starter", cost := 1,
    target := "enemy", effects := [dmgE 6],
    effectsUpgraded := some [dmgE 9] }

/-- The world of the bash-then-strike scenario: a status-free player and a
full-health 44/44 enemy with no block. -/
def scenarioWorld : World :=
  let r := World.empty.createEntity
  let w := r.2.addTag r.1 "player"
  let w := addComp w r.1 (.health 50 80)
  let w := addComp w r.1 (.block 0)
  let w := addComp w r.1 (.energy 3 3)
  let w := addComp w r.1 (.statusEffects [])
  let r2 := w.createEntity
  let w := r2.2.addTag r2.1 "enemy"
  let w := addComp w r2.1 (.health 44 44)
  let w := addComp w r2.1 (.block 0)
  let w := addComp w r2.1 (.statusEffects [])
  w

/-- The scenario machine. -/
def scenarioMachine : Machine := mkTestMachine scenarioWorld

/-- The scenario state after bash's damage hit. -/
def mB1 : Machine := applyHit 0 1 8 true scenarioMachine

/-- The scenario state after the whole bash play. -/
def mB2 : Machine :=
  Machine.emit (resolveApplyStatus (statusE 2 "vulnerable") 0 (some 1)
    "enemy" mB1) (.cardPlayed "bash" 0 (some 1) 2)

/-- The scenario state after the subsequent strike play. -/
def mB3 : Machine :=
  Machine.emit (applyHit 0 1 6 true mB2) (.cardPlayed "strike" 0 (some 1) 1)

/-- C4, part B: bash then strike on the full-health unblocked target removes
8 then floor(6 × 1.5) = 9, 17 in total. -/
theorem bash_strike_scenario :
    getHealth (resolveCard "bash" 0 (some 1) false scenarioMachine).world 1 =
        some (36, 44) ∧
    getHealth (resolveCard "strike" 0 (some 1) false
        (resolveCard "bash" 0 (some 1) false scenarioMachine)).world 1 =
      some (27, 44) := by
  have hd1 : applyDamage 0 1 8 true scenarioMachine =
      applyHit 0 1 8 true scenarioMachine :=
    applyDamage_no_thorns 0 1 8 scenarioMachine rfl
  have hstep1 : resolveCard "bash" 0 (some 1) false scenarioMachine = mB2 := by
    show Machine.emit (resolveApplyStatus (statusE 2 "vulnerable") 0 (some 1)
        "enemy" (applyDamage 0 1 8 true scenarioMachine))
        (.cardPlayed "bash" 0 (some 1) 2) = mB2
    rw [hd1]
    rfl
  have hd2 : applyDamage 0 1 6 true mB2 = applyHit 0 1 6 true mB2 :=
    applyDamage_no_thorns 0 1 6 mB2 (by decide)
  have hstep2 : resolveCard "strike" 0 (some 1) false mB2 = mB3 := by
    show Machine.emit (applyDamage 0 1 6 true mB2)
        (.cardPlayed "strike" 0 (some 1) 1) = mB3
    rw [hd2]
    rfl
  rw [hstep1, hstep2]
  constructor
  · decide
  · decide

/-- C4: for attack-type damage the modifiers apply in the claimed order —
add the attacker's strength, then weak (×0.75 floored), then the target's
vulnerable (×1.5 floored), then the intangible override to 1, then block
absorption, then the clamped health subtraction (part one, quantified over
all stack counts, block, health and base damage on the two-entity world);
and the bash-then-strike scenario removes 8 then 9, 17 total, from a
full-health unblocked target (part two). -/
theorem attack_damage_modifier_order :
    (∀ (strength weakStacks vulnStacks intangibleStacks blockAmt hp mx d :
        Nat),
      getBlock (applyDamage 0 1 (d : Int) true
          (c4Machine strength weakStacks vulnStacks intangibleStacks
            blockAmt hp mx)).world 1 =
        some (specAttackPipeline strength weakStacks vulnStacks
          intangibleStacks blockAmt hp d).1 ∧
      getHealth (applyDamage 0 1 (d : Int) true
          (c4Machine strength weakStacks vulnStacks intangibleStacks
            blockAmt hp mx)).world 1 =
        some ((specAttackPipeline strength weakStacks vulnStacks
          intangibleStacks blockAmt hp d).2, (mx : Int))) ∧
    (getHealth (resolveCard "bash" 0 (some 1) false scenarioMachine).world 1
        = some (36, 44) ∧
      getHealth (resolveCard "strike" 0 (some 1) false
          (resolveCard "bash" 0 (some 1) false scenarioMachine)).world 1 =
        some (27, 44)) :=
  ⟨fun strength weakStacks vulnStacks intangibleStacks blockAmt hp mx d =>
    applyDamage_matches_specAttackPipeline strength weakStacks vulnStacks
      intangibleStacks blockAmt hp mx d,
   bash_strike_scenario⟩

/-! ## Claim C6 (amended) -/

/-- Emitting any event leaves the world untouched: the only listener with a
body only draws cards through the store. -/
theorem emit_world (m : Machine) (e : Event) : (m.emit e).world = m.world := by
  unfold Machine.emit
  dsimp only
  repeat' split
  all_goals rfl

theorem getHealth_setHealth_ne (w : World) (i j : Nat) (c mx : Int)
    (h : i ≠ j) :
    getHealth (setHealth w i c mx) j = getHealth w j := by
  unfold getHealth setHealth World.updateComponent World.getComponent
  have hct : (Component.health c mx).ctype = "health" := rfl
  rw [hct, alGet_alSet_self]
  dsimp only [Option.bind]
  rw [alGet_alSet_ne _ _ _ _ h]
  cases hc : alGet w.components "health" <;> simp [hc, alGet]

theorem getBlock_setBlock_ne (w : World) (i j : Nat) (a : Int)
    (h : i ≠ j) :
    getBlock (setBlock w i a) j = getBlock w j := by
  unfold getBlock setBlock World.updateComponent World.getComponent
  have hct : (Component.block a).ctype = "block" := rfl
  rw [hct, alGet_alSet_self]
  dsimp only [Option.bind]
  rw [alGet_alSet_ne _ _ _ _ h]
  cases hc : alGet w.components "block" <;> simp [hc, alGet]

/-- A hit only writes its own target's block and health components. -/
theorem getHealth_applyHit_ne (s t j : Nat) (d : Int) (ia : Bool)
    (m : Machine) (h : t ≠ j) :
    getHealth (applyHit s t d ia m).world j = getHealth m.world j := by
  unfold applyHit healthStage blockStage Machine.emit
  dsimp only
  repeat' split
  all_goals
    simp_all [getHealth_setBlock, getHealth_setHealth_ne _ _ _ _ _ h]

theorem getBlock_applyHit_ne (s t j : Nat) (d : Int) (ia : Bool)
    (m : Machine) (h : t ≠ j) :
    getBlock (applyHit s t d ia m).world j = getBlock m.world j := by
  unfold applyHit healthStage blockStage Machine.emit
  dsimp only
  repeat' split
  all_goals
    simp_all [getBlock_setHealth, getBlock_setBlock_ne _ _ _ _ h]

/-- One hit keeps a well-formed target well formed: health stays within
`[0, max]` (max unchanged) and block stays nonnegative, whatever the sign of
the incoming base damage and the surrounding status maps. -/
theorem applyHit_bounds (s t : Nat) (d : Int) (ia : Bool) (m : Machine)
    (cur mx blk : Int)
    (hh : getHealth m.world t = some (cur, mx)) (h0 : 0 ≤ cur)
    (h1 : cur ≤ mx) (hb : getBlock m.world t = some blk) (hbnn : 0 ≤ blk) :
    (∃ c', getHealth (applyHit s t d ia m).world t = some (c', mx) ∧
      0 ≤ c' ∧ c' ≤ mx) ∧
    (∃ b', getBlock (applyHit s t d ia m).world t = some b' ∧ 0 ≤ b') := by
  unfold applyHit
  dsimp only
  rw [emit_world]
  dsimp only
  set D := modifiedDamage (getStatus m.world s) (getStatus m.world t) d ia
    with hD
  unfold blockStage
  rw [hb]
  dsimp only
  by_cases hbp : blk > 0
  · rw [if_pos hbp]
    dsimp only
    have hrem : (0 : Int) ≤ D - min blk D := by omega
    have hh2 : getHealth (setBlock m.world t (blk - min blk D)) t =
        some (cur, mx) := by
      rw [getHealth_setBlock]
      exact hh
    refine ⟨⟨max 0 (cur - (D - min blk D)), ?_, ?_, ?_⟩,
      ⟨blk - min blk D, ?_, ?_⟩⟩
    · exact getHealth_healthStage _ _ _ _ _ hh2 hrem h0
    · omega
    · omega
    · rw [getBlock_healthStage _ _ _ _ _ _ hh2 hrem, getBlock_setBlock_self]
    · omega
  · rw [if_neg hbp]
    dsimp only
    by_cases hD0 : D > 0
    · have hrem : (0 : Int) ≤ D := le_of_lt hD0
      refine ⟨⟨max 0 (cur - D), ?_, ?_, ?_⟩, ⟨blk, ?_, hbnn⟩⟩
      · exact getHealth_healthStage _ _ _ _ _ hh hrem h0
      · omega
      · omega
      · rw [getBlock_healthStage _ _ _ _ _ _ hh hrem]
        exact hb
    · unfold healthStage
      rw [if_neg hD0]
      exact ⟨⟨cur, hh, h0, h1⟩, ⟨blk, hb, hbnn⟩⟩

/-- A full damage application — primary hit plus any thorns reflection —
keeps the original target's health within `[0, max]` and its block
nonnegative. -/
theorem applyDamage_bounds (s t : Nat) (d : Int) (ia : Bool) (m : Machine)
    (cur mx blk : Int)
    (hh : getHealth m.world t = some (cur, mx)) (h0 : 0 ≤ cur)
    (h1 : cur ≤ mx) (hb : getBlock m.world t = some blk) (hbnn : 0 ≤ blk) :
    (∃ c', getHealth (applyDamage s t d ia m).world t = some (c', mx) ∧
      0 ≤ c' ∧ c' ≤ mx) ∧
    (∃ b', getBlock (applyDamage s t d ia m).world t = some b' ∧ 0 ≤ b') := by
  obtain ⟨⟨c1, hc1, hc10, hc1m⟩, ⟨b1, hb1, hb10⟩⟩ :=
    applyHit_bounds s t d ia m cur mx blk hh h0 h1 hb hbnn
  rw [applyDamage]
  dsimp only
  by_cases hcond : ia = true ∧
      optTruthy (getStatus (applyHit s t d ia m).world t) "thorns" = true
  · rw [dif_pos hcond, applyDamage_false_eq_applyHit]
    by_cases hst : s = t
    · subst hst
      exact applyHit_bounds _ _ _ _ _ c1 mx b1 hc1 hc10 hc1m hb1 hb10
    · have hne : s ≠ t := hst
      refine ⟨⟨c1, ?_, hc10, hc1m⟩, ⟨b1, ?_, hb10⟩⟩
      · rw [getHealth_applyHit_ne _ _ _ _ _ _ hne]
        exact hc1
      · rw [getBlock_applyHit_ne _ _ _ _ _ _ hne]
        exact hb1
  · rw [dif_neg hcond]
    exact ⟨⟨c1, hc1, hc10, hc1m⟩, ⟨b1, hb1, hb10⟩⟩

/-- A block gain never drives the source's block negative: the modified
amount is floored at zero before being added. -/
theorem resolveBlock_nonneg (eff : CardEffect) (s : Nat) (m : Machine)
    (blk : Int) (hb : getBlock m.world s = some blk) (hbnn : 0 ≤ blk) :
    ∃ b', getBlock (resolveBlock eff s m).world s = some b' ∧ 0 ≤ b' := by
  unfold resolveBlock
  dsimp only
  rw [emit_world]
  dsimp only
  rw [hb]
  refine ⟨_, getBlock_setBlock_self _ _ _, ?_⟩
  have h2 := le_max_left (0 : Int)
    (blockGainAmount (getStatus m.world s) eff.value)
  linarith

/-- A heal of nonnegative magnitude clamps to max health and cannot drop a
well-formed target below zero. -/
theorem resolveHeal_clamped (eff : CardEffect) (s t : Nat)
    (tid : Option Nat) (m : Machine) (cur mx : Int)
    (hres : (if eff.target == some "self" then some s else tid) = some t)
    (hh : getHealth m.world t = some (cur, mx)) (h0 : 0 ≤ cur)
    (h1 : cur ≤ mx) (hv : 0 ≤ eff.value) :
    getHealth (resolveHeal eff s tid m).world t =
      some (min mx (cur + eff.value), mx) ∧
    0 ≤ min mx (cur + eff.value) ∧ min mx (cur + eff.value) ≤ mx := by
  unfold resolveHeal
  dsimp only
  rw [hres]
  dsimp only
  rw [emit_world]
  dsimp only
  rw [hh]
  dsimp only
  exact ⟨getHealth_setHealth_self _ _ _ _, by omega, by omega⟩

/-- The lookup of `intangible` or `no_draw` after `decrementTurnEffects` is
the lookup after its own `decStep` (companion to the three-key lemma). -/
theorem alGet_decrementTurnEffects_late (m : StatusMap) (sid : String)
    (hs : sid = "intangible" ∨ sid = "no_draw") :
    alGet (decrementTurnEffects m) sid = alGet (decStep m sid) sid := by
  rcases hs with rfl | rfl
  · unfold decrementTurnEffects
    simp only [List.foldl_cons, List.foldl_nil]
    rw [alGet_remStep_ne _ _ _ (by decide) (by decide),
        alGet_remStep_ne _ _ _ (by decide) (by decide),
        alGet_remStep_ne _ _ _ (by decide) (by decide),
        alGet_decStep_ne _ _ _ (by decide)]
    refine alGet_decStep_congr _ _ _ ?_
    rw [alGet_decStep_ne _ _ _ (by decide),
        alGet_decStep_ne _ _ _ (by decide),
        alGet_decStep_ne _ _ _ (by decide)]
  · unfold decrementTurnEffects
    simp only [List.foldl_cons, List.foldl_nil]
    rw [alGet_remStep_ne _ _ _ (by decide) (by decide),
        alGet_remStep_ne _ _ _ (by decide) (by decide),
        alGet_remStep_ne _ _ _ (by decide) (by decide)]
    refine alGet_decStep_congr _ _ _ ?_
    rw [alGet_decStep_ne _ _ _ (by decide),
        alGet_decStep_ne _ _ _ (by decide),
        alGet_decStep_ne _ _ _ (by decide),
        alGet_decStep_ne _ _ _ (by decide)]

/-- C6 (amended): the core bounds invariants hold on the resolver's damage,
block and heal paths, and the turn-scoped decrement never leaves a zero
entry — after any damage application a well-formed target's health stays in
`[0, max]` and its block stays nonnegative; a block gain keeps the source's
block nonnegative; a nonnegative heal clamps to max health; and each of the
five turn-scoped counters decrements with its entry removed on reaching
zero.  (The original claim is false in three places, per the recorded
counterexample: consuming the last artifact stack stores `artifact ↦ 0`
instead of deleting the entry, `strength_down_eot` expiry can store a zero
or negative `strength` entry, and brutality's turn-start HP loss is applied
without the zero clamp.) -/
theorem core_bounds_invariants :
    (∀ (s t : Nat) (d : Int) (ia : Bool) (m : Machine) (cur mx blk : Int),
      getHealth m.world t = some (cur, mx) → 0 ≤ cur → cur ≤ mx →
      getBlock m.world t = some blk → 0 ≤ blk →
      (∃ c', getHealth (applyDamage s t d ia m).world t = some (c', mx) ∧
        0 ≤ c' ∧ c' ≤ mx) ∧
      (∃ b', getBlock (applyDamage s t d ia m).world t = some b' ∧
        0 ≤ b')) ∧
    (∀ (eff : CardEffect) (s : Nat) (m : Machine) (blk : Int),
      getBlock m.world s = some blk → 0 ≤ blk →
      ∃ b', getBlock (resolveBlock eff s m).world s = some b' ∧ 0 ≤ b') ∧
    (∀ (eff : CardEffect) (s t : Nat) (tid : Option Nat) (m : Machine)
        (cur mx : Int),
      (if eff.target == some "self" then some s else tid) = some t →
      getHealth m.world t = some (cur, mx) → 0 ≤ cur → cur ≤ mx →
      0 ≤ eff.value →
      getHealth (resolveHeal eff s tid m).world t =
        some (min mx (cur + eff.value), mx) ∧
      0 ≤ min mx (cur + eff.value) ∧ min mx (cur + eff.value) ≤ mx) ∧
    (∀ (sm : StatusMap) (sid : String) (v : Int),
      (sid = "vulnerable" ∨ sid = "weak" ∨ sid = "frail" ∨
        sid = "intangible" ∨ sid = "no_draw") →
      alGet sm sid = some v → 0 < v →
      alGet (decrementTurnEffects sm) sid =
        if v - 1 ≤ 0 then none else some (v - 1)) := by
  refine ⟨?_, ?_, ?_, ?_⟩
  · intro s t d ia m cur mx blk hh h0 h1 hb hbnn
    exact applyDamage_bounds s t d ia m cur mx blk hh h0 h1 hb hbnn
  · intro eff s m blk hb hbnn
    exact resolveBlock_nonneg eff s m blk hb hbnn
  · intro eff s t tid m cur mx hres hh h0 h1 hv
    exact resolveHeal_clamped eff s t tid m cur mx hres hh h0 h1 hv
  · intro sm sid v hs hv hvp
    rcases hs with rfl | rfl | rfl | rfl | rfl
    · rw [alGet_decrementTurnEffects _ _ (Or.inl rfl),
        alGet_decStep_pos _ _ _ hv hvp]
    · rw [alGet_decrementTurnEffects _ _ (Or.inr (Or.inl rfl)),
        alGet_decStep_pos _ _ _ hv hvp]
    · rw [alGet_decrementTurnEffects _ _ (Or.inr (Or.inr rfl)),
        alGet_decStep_pos _ _ _ hv hvp]
    · rw [alGet_decrementTurnEffects_late _ _ (Or.inl rfl),
        alGet_decStep_pos _ _ _ hv hvp]
    · rw [alGet_decrementTurnEffects_late _ _ (Or.inr rfl),
        alGet_decStep_pos _ _ _ hv hvp]

/-- A self-targeted heal effect record. -/
def healSelfE (v : Int) : CardEffect :=
  { etype := "heal", value := v, target := some "self" }

/-- The amended-invariant conclusions at a concrete state: a 30-damage
attack on the 44/82-health unblocked enemy, a frail-free block gain, a
12-point heal on the 50/80 player and a `weak ↦ 2` decrement. -/
theorem core_bounds_invariants_witness :
    ((∃ c', getHealth (applyDamage 0 1 30 true
        (mkTestMachine (mkTestWorld 44 false 50 [] []))).world 1 =
        some (c', 82) ∧ 0 ≤ c' ∧ c' ≤ 82) ∧
      (∃ b', getBlock (applyDamage 0 1 30 true
        (mkTestMachine (mkTestWorld 44 false 50 [] []))).world 1 =
        some b' ∧ 0 ≤ b')) ∧
    (∃ b', getBlock (resolveBlock (blockE 5) 0
        (mkTestMachine (mkTestWorld 44 false 50 [] []))).world 0 =
        some b' ∧ 0 ≤ b') ∧
    (getHealth (resolveHeal (healSelfE 12) 0 none
        (mkTestMachine (mkTestWorld 44 false 50 [] []))).world 0 =
      some (min 80 (50 + 12), 80) ∧
      (0 : Int) ≤ min 80 (50 + 12) ∧ (min 80 (50 + 12) : Int) ≤ 80) ∧
    (alGet (decrementTurnEffects [("weak", 2)]) "weak" =
      if (2 : Int) - 1 ≤ 0 then none else some (2 - 1)) := by
  refine ⟨?_, ?_, ?_, ?_⟩
  · exact core_bounds_invariants.1 0 1 30 true
      (mkTestMachine (mkTestWorld 44 false 50 [] [])) 44 82 0
      (by decide) (by decide) (by decide) (by decide) (by decide)
  · exact core_bounds_invariants.2.1 (blockE 5) 0
      (mkTestMachine (mkTestWorld 44 false 50 [] [])) 0
      (by decide) (by decide)
  · exact core_bounds_invariants.2.2.1 (healSelfE 12) 0 0 none
      (mkTestMachine (mkTestWorld 44 false 50 [] [])) 50 80
      (by decide) (by decide) (by decide) (by decide) (by decide)
  · exact core_bounds_invariants.2.2.2 [("weak", 2)] "weak" 2
      (Or.inr (Or.inl rfl)) (by decide) (by decide)

/-! ## Claim C9 -/

theorem mem_setAdd {κ : Type} [DecidableEq κ] (l : List κ) (k x : κ) :
    x ∈ setAdd l k ↔ x ∈ l ∨ x = k := by
  unfold setAdd
  by_cases h : k ∈ l
  · simp only [h, if_true]
    constructor
    · exact Or.inl
    · rintro (h1 | rfl)
      · exact h1
      · exact h
  · simp [h]

theorem foldl_setAdd_eq {κ : Type} [DecidableEq κ] (l : List κ) :
    ∀ acc : List κ, l.Nodup → (∀ x ∈ l, x ∉ acc) →
      l.foldl setAdd acc = acc ++ l := by
  induction l with
  | nil => intro acc _ _; simp
  | cons a rest ih =>
    intro acc hnd hdis
    simp only [List.foldl_cons]
    have ha : a ∉ acc := hdis a (List.mem_cons_self a rest)
    have h1 : setAdd acc a = acc ++ [a] := by simp [setAdd, ha]
    rw [h1, ih (acc ++ [a]) (List.nodup_cons.mp hnd).2 ?_]
    · simp
    · intro x hx hmem
      rcases List.mem_append.mp hmem with hxa | hxs
      · exact hdis x (List.mem_cons_of_mem a hx) hxa
      · exact (List.nodup_cons.mp hnd).1 (List.mem_singleton.mp hxs ▸ hx)

theorem alSet_eq_append {κ α : Type} [DecidableEq κ]
    (l : List (κ × α)) (k : κ) (v : α) (h : k ∉ l.map Prod.fst) :
    alSet l k v = l ++ [(k, v)] := by
  induction l with
  | nil => rfl
  | cons p rest ih =>
    obtain ⟨pk, pv⟩ := p
    simp only [List.map_cons, List.mem_cons] at h
    push_neg at h
    simp [alSet, Ne.symm h.1, ih h.2]

theorem alGet_eq_none_of_not_mem {κ α : Type} [DecidableEq κ]
    (l : List (κ × α)) (k : κ) (h : k ∉ l.map Prod.fst) :
    alGet l k = none := by
  induction l with
  | nil => rfl
  | cons p rest ih =>
    obtain ⟨pk, pv⟩ := p
    simp only [List.map_cons, List.mem_cons] at h
    push_neg at h
    simp [Ne.symm h.1, ih h.2]

theorem mem_of_alGet_eq_some {κ α : Type} [DecidableEq κ]
    (l : List (κ × α)) (k : κ) (v : α) (h : alGet l k = some v) :
    (k, v) ∈ l := by
  induction l with
  | nil => simp [alGet] at h
  | cons p rest ih =>
    obtain ⟨pk, pv⟩ := p
    rw [alGet_cons] at h
    by_cases hk : pk = k
    · subst hk
      rw [if_pos rfl] at h
      injection h with h2
      subst h2
      exact List.mem_cons_self _ _
    · rw [if_neg hk] at h
      exact List.mem_cons_of_mem _ (ih h)

/-- A keyed fold of `alSet` over a duplicate-free dump appends one rebuilt
entry per dumped entry, in order. -/
theorem foldl_alSet_eq_append {κ α β : Type} [DecidableEq κ]
    (f : κ × α → β) (l : List (κ × α)) :
    ∀ acc : List (κ × β), (l.map Prod.fst).Nodup →
      (∀ p ∈ l, p.1 ∉ acc.map Prod.fst) →
      l.foldl (fun m p => alSet m p.1 (f p)) acc =
        acc ++ l.map (fun p => (p.1, f p)) := by
  induction l with
  | nil => intro acc _ _; simp
  | cons p rest ih =>
    intro acc hnd hdis
    simp only [List.map_cons, List.nodup_cons] at hnd
    simp only [List.foldl_cons]
    have h1 : p.1 ∉ acc.map Prod.fst := hdis p (List.mem_cons_self p rest)
    rw [alSet_eq_append acc p.1 (f p) h1, ih (acc ++ [(p.1, f p)]) hnd.2 ?_]
    · simp
    · intro q hq hmem
      rw [List.map_append] at hmem
      rcases List.mem_append.mp hmem with hqa | hqs
      · exact hdis q (List.mem_cons_of_mem p hq) hqa
      · have : q.1 = p.1 := by simpa using hqs
        exact hnd.1 (this ▸ List.mem_map_of_mem Prod.fst hq)

/-- The entry list of a serialized `statusEffects` component (empty for the
plain record kinds). -/
def statusEntries : Component → StatusMap
  | .statusEffects e => e
  | _ => []

/-- `new Map(entries)` rebuilds exactly the dumped entry list when its keys
are duplicate-free — which `Array.from(map.entries())` guarantees. -/
theorem mapFromEntries_self (e : StatusMap)
    (h : (e.map Prod.fst).Nodup) : mapFromEntries e = e := by
  unfold mapFromEntries
  rw [foldl_alSet_eq_append Prod.snd e [] h (by simp)]
  simp

theorem deserializeComponent_eq_self (c : Component)
    (h : ((statusEntries c).map Prod.fst).Nodup) :
    deserializeComponent c = c := by
  cases c with
  | statusEffects e =>
    simp only [deserializeComponent]
    rw [mapFromEntries_self e h]
  | _ => rfl

/-- The body of `deserialize`'s per-entity-tag loop, first index
(`entityTags.set(entityId, tagSet)`). -/
def etStep (et : List (Nat × List String)) (p : Nat × List String) :
    List (Nat × List String) :=
  alSet et p.1 (p.2.foldl setAdd [])

/-- One `tagEntities.get(tag)!.add(entityId)` update of the reverse
index. -/
def teTagStep (pId : Nat) (te : List (String × List Nat)) (tag : String) :
    List (String × List Nat) :=
  alSet te tag (setAdd ((alGet te tag).getD []) pId)

/-- The body of `deserialize`'s per-entity-tag loop, reverse index. -/
def teStep (te : List (String × List Nat)) (p : Nat × List String) :
    List (String × List Nat) :=
  (p.2.foldl setAdd []).foldl (teTagStep p.1) te

/-- The tag loop of `deserialize` updates its two indexes independently. -/
theorem taggedFold_split (l : List (Nat × List String)) :
    ∀ (a : List (Nat × List String)) (b : List (String × List Nat)),
      l.foldl
        (fun (acc : List (Nat × List String) × List (String × List Nat))
            p =>
          let tagSet := p.2.foldl setAdd []
          (alSet acc.1 p.1 tagSet,
           tagSet.foldl
             (fun te tag => alSet te tag (setAdd ((alGet te tag).getD []) p.1))
             acc.2))
        (a, b) =
      (l.foldl etStep a, l.foldl teStep b) := by
  induction l with
  | nil => intro a b; rfl
  | cons p rest ih =>
    intro a b
    simp only [List.foldl_cons]
    exact ih _ _

theorem alGet_map_nil (l : List Nat) (id : Nat) :
    alGet (l.map (fun i => (i, ([] : List String)))) id =
      if id ∈ l then some [] else none := by
  induction l with
  | nil => simp
  | cons a rest ih =>
    by_cases h : a = id
    · subst h
      simp
    · simp [h, ih, Ne.symm h]

/-- Lookup of the rebuilt tag index: a dumped entry wins (rebuilt as a set),
otherwise the initial empty-set table answers. -/
theorem alGet_foldl_etStep (l : List (Nat × List String)) :
    ∀ (acc : List (Nat × List String)) (id : Nat),
      (l.map Prod.fst).Nodup →
      alGet (l.foldl etStep acc) id =
        (match alGet l id with
         | some ts => some (ts.foldl setAdd [])
         | none => alGet acc id) := by
  induction l with
  | nil => intro acc id _; rfl
  | cons p rest ih =>
    intro acc id hnd
    obtain ⟨pk, pts⟩ := p
    simp only [List.map_cons, List.nodup_cons] at hnd
    simp only [List.foldl_cons]
    rw [ih _ id hnd.2]
    by_cases hid : pk = id
    · subst hid
      have hr : alGet rest pk = none :=
        alGet_eq_none_of_not_mem rest pk hnd.1
      simp [hr, etStep, alGet_alSet_self]
    · cases hrest : alGet rest id <;>
        simp [hrest, hid, etStep, alGet_alSet_ne _ _ _ _ hid]

/-- Membership in the reverse index after registering one entity's tag
set. -/
theorem mem_teTagFold (ts : List String) :
    ∀ (te : List (String × List Nat)) (pId id : Nat) (tag : String),
      (id ∈ (alGet (ts.foldl (teTagStep pId) te) tag).getD [] ↔
        ((tag ∈ ts ∧ id = pId) ∨ id ∈ (alGet te tag).getD [])) := by
  induction ts with
  | nil => intro te pId id tag; simp
  | cons t rest ih =>
    intro te pId id tag
    simp only [List.foldl_cons]
    rw [ih]
    by_cases htag : tag = t
    · subst htag
      simp only [teTagStep, alGet_alSet_self, Option.getD_some,
        List.mem_cons, true_or, true_and]
      constructor
      · rintro (⟨_, rfl⟩ | hmem)
        · left; rfl
        · rcases (mem_setAdd _ _ _).mp hmem with hold | rfl
          · right; exact hold
          · left; rfl
      · rintro (rfl | hold)
        · right; exact (mem_setAdd _ _ _).mpr (Or.inr rfl)
        · right; exact (mem_setAdd _ _ _).mpr (Or.inl hold)
    · have hne : t ≠ tag := fun hq => htag hq.symm
      simp only [teTagStep, alGet_alSet_ne _ _ _ _ hne, List.mem_cons]
      constructor
      · rintro (⟨hrest, rfl⟩ | hold)
        · exact Or.inl ⟨Or.inr hrest, rfl⟩
        · exact Or.inr hold
      · rintro (⟨hrt | hrest, rfl⟩ | hold)
        · exact absurd hrt htag
        · exact Or.inl ⟨hrest, rfl⟩
        · exact Or.inr hold

/-- Membership in the fully rebuilt reverse index is exactly membership in
the dumped per-entity tag lists. -/
theorem mem_teFold (l : List (Nat × List String)) :
    ∀ (te : List (String × List Nat)) (id : Nat) (tag : String),
      (l.map Prod.fst).Nodup → (∀ p ∈ l, (p.2 : List String).Nodup) →
      (id ∈ (alGet (l.foldl teStep te) tag).getD [] ↔
        ((∃ ts, alGet l id = some ts ∧ tag ∈ ts) ∨
          id ∈ (alGet te tag).getD [])) := by
  induction l with
  | nil =>
    intro te id tag _ _
    simp
  | cons p rest ih =>
    intro te id tag hnd hts
    obtain ⟨pk, pts⟩ := p
    simp only [List.map_cons, List.nodup_cons] at hnd
    have hpts : pts.foldl setAdd [] = pts := by
      have := foldl_setAdd_eq pts []
        (hts (pk, pts) (List.mem_cons_self _ _)) (by simp)
      simpa using this
    simp only [List.foldl_cons]
    rw [ih _ id tag hnd.2 (fun q hq => hts q (List.mem_cons_of_mem _ hq))]
    have hstep : teStep te (pk, pts) = pts.foldl (teTagStep pk) te := by
      unfold teStep
      rw [hpts]
    rw [hstep, mem_teTagFold]
    by_cases hid : pk = id
    · subst hid
      have hr : alGet rest pk = none :=
        alGet_eq_none_of_not_mem rest pk hnd.1
      have hcons2 : alGet ((pk, pts) :: rest) pk = some pts := by
        rw [alGet_cons, if_pos rfl]
      constructor
      · rintro (⟨ts, hts3, _⟩ | ⟨htp, _⟩ | hold)
        · rw [hr] at hts3
          simp at hts3
        · exact Or.inl ⟨pts, hcons2, htp⟩
        · exact Or.inr hold
      · rintro (⟨ts, hts3, htagm⟩ | hold)
        · rw [hcons2] at hts3
          injection hts3 with h4
          subst h4
          exact Or.inr (Or.inl ⟨htagm, rfl⟩)
        · exact Or.inr (Or.inr hold)
    · have hcons2 : alGet ((pk, pts) :: rest) id = alGet rest id := by
        rw [alGet_cons, if_neg hid]
      rw [hcons2]
      constructor
      · rintro (hex | ⟨_, hidpk⟩ | hold)
        · exact Or.inl hex
        · exact absurd hidpk.symm hid
        · exact Or.inr hold
      · rintro (hex | hold)
        · exact Or.inl hex
        · exact Or.inr (Or.inr hold)

/-- The entity loop of `deserialize` rebuilds the empty-tag-set table, one
entry per entity. -/
theorem foldl_alSet_nil_eq (l : List Nat) :
    ∀ acc : List (Nat × List String), l.Nodup →
      (∀ x ∈ l, x ∉ acc.map Prod.fst) →
      l.foldl (fun et id => alSet et id []) acc =
        acc ++ l.map (fun i => (i, [])) := by
  induction l with
  | nil => intro acc _ _; simp
  | cons a rest ih =>
    intro acc hnd hdis
    simp only [List.nodup_cons] at hnd
    simp only [List.foldl_cons]
    have h1 : a ∉ acc.map Prod.fst := hdis a (List.mem_cons_self a rest)
    rw [alSet_eq_append acc a [] h1, ih (acc ++ [(a, [])]) hnd.2 ?_]
    · simp
    · intro x hx hmem
      rw [List.map_append] at hmem
      rcases List.mem_append.mp hmem with hxa | hxs
      · exact hdis x (List.mem_cons_of_mem a hx) hxa
      · have hxeq : x = a := by simpa using hxs
        exact hnd.1 (hxeq ▸ hx)

/-- C9: serialization round-trips observationally.  On any world whose JS
`Map`/`Set`-backed tables are well formed (duplicate-free entity list,
duplicate-free keys in the component tables, the per-entity tag table and
every serialized status-entry array, duplicate-free tag lists) and whose
reverse tag index agrees with the per-entity tag sets (as `addTag` and
`destroyEntity` maintain), `deserialize(serialize(w))` preserves the next
entity id, the entity set, every component value of every entity and kind,
every tag membership, and membership of the per-tag entity index. -/
theorem serialize_deserialize_roundtrip (w : World)
    (hent : w.entities.Nodup)
    (hcomp : (w.components.map Prod.fst).Nodup)
    (hinner : ∀ p ∈ w.components,
      ((p.2 : List (Nat × Component)).map Prod.fst).Nodup)
    (hstatus : ∀ p ∈ w.components, ∀ q ∈ (p.2 : List (Nat × Component)),
      ((statusEntries q.2).map Prod.fst).Nodup)
    (htags : (w.entityTags.map Prod.fst).Nodup)
    (htagl : ∀ p ∈ w.entityTags, (p.2 : List String).Nodup)
    (hcons : ∀ p ∈ w.tagEntities, ∀ id ∈ (p.2 : List Nat),
      w.hasTag id p.1 = true)
    (hcomplete : ∀ p ∈ w.entityTags, ∀ tag ∈ (p.2 : List String),
      p.1 ∈ w.getEntitiesByTag tag) :
    (World.deserialize w.serialize).nextEntityId = w.nextEntityId ∧
    (∀ id, (World.deserialize w.serialize).hasEntity id =
      w.hasEntity id) ∧
    (∀ id t, (World.deserialize w.serialize).getComponent id t =
      w.getComponent id t) ∧
    (∀ id tag, (World.deserialize w.serialize).hasTag id tag =
      w.hasTag id tag) ∧
    (∀ tag id, id ∈ (World.deserialize w.serialize).getEntitiesByTag tag ↔
      id ∈ w.getEntitiesByTag tag) := by
  have hentities : (World.deserialize w.serialize).entities = w.entities := by
    show w.entities.foldl setAdd [] = w.entities
    rw [foldl_setAdd_eq w.entities [] hent (by simp)]
    simp
  have hcomponents : (World.deserialize w.serialize).components =
      w.components := by
    show w.components.foldl
      (fun cs p =>
        alSet cs p.1
          (p.2.foldl (fun m q => alSet m q.1 (deserializeComponent q.2)) []))
      [] = w.components
    rw [foldl_alSet_eq_append
      (fun p => p.2.foldl (fun m q => alSet m q.1 (deserializeComponent q.2))
        []) w.components [] hcomp (by simp)]
    simp only [List.nil_append]
    have hmap : ∀ p ∈ w.components,
        (p.1, p.2.foldl
          (fun m q => alSet m q.1 (deserializeComponent q.2)) []) = p := by
      intro p hp
      rw [foldl_alSet_eq_append (fun q => deserializeComponent q.2) p.2 []
        (hinner p hp) (by simp)]
      simp only [List.nil_append]
      have hq : ∀ q ∈ (p.2 : List (Nat × Component)),
          (q.1, deserializeComponent q.2) = q := by
        intro q hq2
        rw [deserializeComponent_eq_self q.2 (hstatus p hp q hq2)]
      rw [List.map_congr_left hq, List.map_id']
    rw [List.map_congr_left hmap, List.map_id']
  have h0 : w.entities.foldl
      (fun (et : List (Nat × List String)) id => alSet et id []) [] =
      w.entities.map (fun i => (i, ([] : List String))) := by
    rw [foldl_alSet_nil_eq w.entities [] hent (by simp)]
    simp
  have hETfield : (World.deserialize w.serialize).entityTags =
      w.entityTags.foldl etStep (w.entities.map (fun i => (i, []))) := by
    show (w.entityTags.foldl
      (fun (acc : List (Nat × List String) × List (String × List Nat)) p =>
        let tagSet := p.2.foldl setAdd []
        (alSet acc.1 p.1 tagSet,
         tagSet.foldl
           (fun te tag => alSet te tag (setAdd ((alGet te tag).getD []) p.1))
           acc.2))
      (w.entities.foldl (fun et id => alSet et id []) [], [])).1 = _
    rw [taggedFold_split, h0]
  have hTEfield : (World.deserialize w.serialize).tagEntities =
      w.entityTags.foldl teStep [] := by
    show (w.entityTags.foldl
      (fun (acc : List (Nat × List String) × List (String × List Nat)) p =>
        let tagSet := p.2.foldl setAdd []
        (alSet acc.1 p.1 tagSet,
         tagSet.foldl
           (fun te tag => alSet te tag (setAdd ((alGet te tag).getD []) p.1))
           acc.2))
      (w.entities.foldl (fun et id => alSet et id []) [], [])).2 = _
    rw [taggedFold_split]
  refine ⟨rfl, ?_, ?_, ?_, ?_⟩
  · intro id
    unfold World.hasEntity
    rw [hentities]
  · intro id t
    unfold World.getComponent
    rw [hcomponents]
  · intro id tag
    unfold World.hasTag
    rw [hETfield, alGet_foldl_etStep w.entityTags _ id htags]
    cases he : alGet w.entityTags id with
    | some ts =>
      have hnod : ts.Nodup := htagl (id, ts) (mem_of_alGet_eq_some _ _ _ he)
      have hts : ts.foldl setAdd [] = ts := by
        have h2 := foldl_setAdd_eq ts [] hnod (by simp)
        simpa using h2
      simp [hts]
    | none =>
      rw [alGet_map_nil]
      by_cases hidm : id ∈ w.entities <;> simp [hidm]
  · intro tag id
    unfold World.getEntitiesByTag
    rw [hTEfield, mem_teFold w.entityTags [] id tag htags htagl]
    simp only [alGet_nil, Option.getD_none, List.not_mem_nil, or_false]
    constructor
    · rintro ⟨ts, hts2, htagm⟩
      exact hcomplete (id, ts) (mem_of_alGet_eq_some _ _ _ hts2) tag htagm
    · intro hmem
      cases hte : alGet w.tagEntities tag with
      | none =>
        rw [hte] at hmem
        simp at hmem
      | some ids =>
        rw [hte] at hmem
        simp only [Option.getD_some] at hmem
        have h1 := hcons (tag, ids) (mem_of_alGet_eq_some _ _ _ hte) id hmem
        unfold World.hasTag at h1
        cases he2 : alGet w.entityTags id with
        | none =>
          rw [he2] at h1
          simp at h1
        | some ts =>
          rw [he2] at h1
          refine ⟨ts, rfl, ?_⟩
          simpa using h1

/-- A concrete well-formed world: tagged player and elite enemy, all four
component kinds populated, nonempty nested status maps. -/
def c9World : World :=
  mkTestWorld 30 true 50 [("strength", 2)] [("weak", 1), ("vulnerable", 3)]

/-- The round-trip conclusions at the concrete world `c9World`. -/
theorem serialize_deserialize_roundtrip_witness :
    (World.deserialize c9World.serialize).nextEntityId =
      c9World.nextEntityId ∧
    (∀ id, (World.deserialize c9World.serialize).hasEntity id =
      c9World.hasEntity id) ∧
    (∀ id t, (World.deserialize c9World.serialize).getComponent id t =
      c9World.getComponent id t) ∧
    (∀ id tag, (World.deserialize c9World.serialize).hasTag id tag =
      c9World.hasTag id tag) ∧
    (∀ tag id,
      id ∈ (World.deserialize c9World.serialize).getEntitiesByTag tag ↔
        id ∈ c9World.getEntitiesByTag tag) :=
  serialize_deserialize_roundtrip c9World (by decide) (by decide)
    (by decide) (by decide) (by decide) (by decide) (by decide) (by decide)

end STS
